import Mathlib

/-!
# Dynamic-test: the three pages of the messaging client

A shallow embedding of `src/app/page.js` (component `Home`),
`src/app/dashboard/page.js` (component `Dashboard`) and
`src/app/admin/page.js` (component `AdminPanel`).

Modelling conventions.

* A JavaScript value is a `JSValue`.  Numbers are rationals: every finite
  double is one, and the pages only test numbers for truthiness and strict
  equality, never compute with them.  Objects are association lists from
  property names to values, read from the front.
* Reading a property of `null` or `undefined` raises `TypeError`; reading a
  property that is absent gives `undefined`.  The pages read only the
  properties `role`, `id`, `status`, `success`, `message` and `user`, none of
  which exists on a primitive or on an array, so such a read gives
  `undefined` there.
* Strict equality of two objects or two arrays is identity of reference,
  which the embedding does not track: `strictEq` answers `false` for them.
* `JSON.parse` and `JSON.stringify` belong to the platform, not to the
  repository; every function that calls them takes them as the parameter
  `J : JSON`.  Where a statement depends on what they do, it is made at
  `JSON.ecma`, the model of them in the namespace `JSONText`: compact
  serialisation with the escapes of `QuoteJSONString`, and a parser for the
  JSON grammar (whitespace, escapes, fractions and exponents; a repeated key
  takes the later value).  Numbers being exact rationals, a number is written
  as its plain decimal expansion, without the exponent notation ECMAScript
  uses for very large and very small numbers, and is read back without
  rounding; keys that look like array indices are not moved to the front; an
  escaped lone surrogate, which is no `Char`, is refused.
* The component state is a record; the browser around it (`localStorage`,
  the router, the network, the console) is the record `Browser`, in which
  calls are logged oldest first.
* An `await fetch(..)` followed by `await response.json()` either yields the
  decoded value or rejects; the handler receives that outcome as a
  `NetOutcome`.  A nested call that is not awaited (`fetchMessages()` inside
  `markAsRead`) issues its request at once and resumes later with an outcome
  of its own.
* `localStorage.setItem` and `router.push` are taken not to raise.
* A pushed path is served by the page of that path, mounted from its first
  render in the same browser (`Route.mount`); `localStorage` persists across
  pages.
* A form whose controls carry `required` is validated by the browser before
  its `submit` event is dispatched; `Dashboard.submitForm` embeds that step.
-/

namespace DynamicTest

/-! ## JavaScript values -/

/-- The two kinds of exception the pages can meet. -/
inductive JSError where
  | TypeError
  | SyntaxError
  deriving DecidableEq, Repr

/-- A JavaScript value as the pages see it. -/
inductive JSValue where
  | undefined
  | null
  | bool (b : Bool)
  | num (q : ℚ)
  | str (s : String)
  | arr (items : List JSValue)
  | obj (props : List (String × JSValue))

namespace JSValue

/-- Truthiness, as in `if (v)`, `!v`, `a && b`, `a || b`. -/
def truthy : JSValue → Bool
  | undefined => false
  | null => false
  | bool b => b
  | num q => decide (q ≠ 0)
  | str s => decide (s ≠ "")
  | arr _ => true
  | obj _ => true

/-- Whether the value is `null` or `undefined`. -/
def isNullish : JSValue → Bool
  | undefined => true
  | null => true
  | _ => false

/-- Property read `v.k` (for the property names the pages use). -/
def getProp (v : JSValue) (k : String) : Except JSError JSValue :=
  match v with
  | undefined => .error .TypeError
  | null => .error .TypeError
  | obj props =>
    match props.lookup k with
    | some x => .ok x
    | none => .ok undefined
  | _ => .ok undefined

/-- Strict equality `a === b`. -/
def strictEq : JSValue → JSValue → Bool
  | undefined, undefined => true
  | null, null => true
  | bool a, bool b => a == b
  | num a, num b => decide (a = b)
  | str a, str b => a == b
  | _, _ => false

/-- The test `Array.isArray(v)`. -/
def isArray : JSValue → Bool
  | arr _ => true
  | _ => false

/-- The value of `a || b`. -/
def orElse (a b : JSValue) : JSValue :=
  if a.truthy then a else b

/-- Own enumerable properties of a value, as an object spread copies them. -/
def ownProps : JSValue → List (String × JSValue)
  | obj props => props
  | arr items => items.enum.map (fun p => (toString p.1, p.2))
  | str s => s.toList.enum.map (fun p => (toString p.1, str (String.singleton p.2)))
  | _ => []

end JSValue

/-- Writing a property in an object literal: an existing key keeps its place
and takes the new value, a new key goes last. -/
def setField : List (String × JSValue) → String → JSValue → List (String × JSValue)
  | [], k, v => [(k, v)]
  | (k', v') :: rest, k, v =>
    if k' = k then (k, v) :: rest else (k', v') :: setField rest k v

/-- The platform's JSON codec: `JSON.parse` raises or gives a value,
`JSON.stringify` gives a text, or `undefined` (here `none`). -/
structure JSON where
  parse : String → Except JSError JSValue
  stringify : JSValue → Option String

/-! ## The browser around a page -/

/-- The HTTP methods the pages use. -/
inductive Method where
  | GET
  | POST
  | PUT
  deriving DecidableEq, Repr

/-- The URLs the pages fetch, all under `API_BASE_URL`. -/
inductive Endpoint where
  /-- The URL `${API_BASE_URL}/auth.php`. -/
  | auth
  /-- The URL `${API_BASE_URL}/messages.php`. -/
  | messages
  /-- The URL `${API_BASE_URL}/messages.php?admin=true`. -/
  | messagesAdmin
  /-- The URL `${API_BASE_URL}/messages.php?user_id=${userId}`. -/
  | messagesOfUser (userId : JSValue)

/-- One call of `fetch`. -/
structure Request where
  method : Method
  endpoint : Endpoint
  body : Option String

/-- What `await fetch(..)` and `await response.json()` give the handler. -/
inductive NetOutcome where
  /-- Either promise rejected (network failure, body that is not JSON). -/
  | failed
  /-- The decoded body. -/
  | json (data : JSValue)

/-- The browser state a page reads and writes. -/
structure Browser where
  localStorage : List (String × String)
  pushes : List String
  requests : List Request
  errors : List String

namespace Browser

/-- The call `localStorage.getItem(k)`; `none` is `null`. -/
def getItem (b : Browser) (k : String) : Option String :=
  b.localStorage.lookup k

/-- The call `localStorage.setItem(k, v)`. -/
def setItem (b : Browser) (k v : String) : Browser :=
  { b with localStorage := (k, v) :: b.localStorage.filter (fun p => p.1 ≠ k) }

/-- The call `localStorage.removeItem(k)`. -/
def removeItem (b : Browser) (k : String) : Browser :=
  { b with localStorage := b.localStorage.filter (fun p => p.1 ≠ k) }

/-- The call `router.push(path)`. -/
def push (b : Browser) (path : String) : Browser :=
  { b with pushes := b.pushes ++ [path] }

/-- The call `fetch(url, options)`. -/
def fetch (b : Browser) (r : Request) : Browser :=
  { b with requests := b.requests ++ [r] }

/-- The call `console.error(label, error)`. -/
def consoleError (b : Browser) (label : String) : Browser :=
  { b with errors := b.errors ++ [label] }

end Browser

/-- The callback of `data.filter(msg => msg.status === status)`, run over the
array in order; the first read that raises ends the loop. -/
def filterByStatus (status : String) : List JSValue → Except JSError (List JSValue)
  | [] => .ok []
  | msg :: rest =>
    match msg.getProp "status" with
    | .error e => .error e
    | .ok st =>
      match filterByStatus status rest with
      | .error e => .error e
      | .ok kept => .ok (if st.strictEq (.str status) then msg :: kept else kept)

/-! ## The admin page -/

/-- The `stats` state of the admin page. -/
structure Stats where
  total : Nat
  unread : Nat
  read : Nat
  deriving DecidableEq, Repr

namespace AdminPanel

/-- The state of the `AdminPanel` component. -/
structure State where
  user : JSValue
  messages : List JSValue
  loading : Bool
  selectedMessage : JSValue
  stats : Stats
  env : Browser

/-- The state right after the first render. -/
def State.initial (env : Browser) : State :=
  { user := .null, messages := [], loading := true, selectedMessage := .null,
    stats := ⟨0, 0, 0⟩, env := env }

/-- The part of `fetchMessages` up to its first `await`: the request. -/
def fetchMessages.start (s : State) : State :=
  { s with env := s.env.fetch ⟨.GET, .messagesAdmin, none⟩ }

/-- The body of the `try` of `fetchMessages` after the awaits: the state it
reaches, and the exception it raised there, if any. -/
def fetchMessages.body (data : JSValue) (s : State) : Option JSError × State :=
  match data with
  | .arr items =>
    let s1 := { s with messages := items }
    match filterByStatus "unread" items with
    | .error e => (some e, s1)
    | .ok unread =>
      match filterByStatus "read" items with
      | .error e => (some e, s1)
      | .ok read =>
        (none, { s1 with stats := ⟨items.length, unread.length, read.length⟩ })
  | _ => (none, s)

/-- The rest of `fetchMessages`, once the response is known: `try`, `catch`
and `finally`. -/
def fetchMessages.resume (out : NetOutcome) (s : State) : State :=
  let afterTry :=
    match out with
    | .failed => { s with env := s.env.consoleError "Error fetching messages:" }
    | .json data =>
      match fetchMessages.body data s with
      | (none, s') => s'
      | (some _, s') => { s' with env := s'.env.consoleError "Error fetching messages:" }
  { afterTry with loading := false }

/-- The function `fetchMessages`, run to completion. -/
def fetchMessages (out : NetOutcome) (s : State) : State :=
  fetchMessages.resume out (fetchMessages.start s)

/-- The effect run on mount: the route guard of the admin page. -/
def useEffect (J : JSON) (s : State) : Except JSError State :=
  match s.env.getItem "user" with
  | none => .ok { s with env := s.env.push "/" }
  | some userData =>
    if userData = "" then .ok { s with env := s.env.push "/" }
    else
      match J.parse userData with
      | .error e => .error e
      | .ok parsedUser =>
        match parsedUser.getProp "role" with
        | .error e => .error e
        | .ok role =>
          if role.strictEq (.str "admin") then
            .ok (fetchMessages.start { s with user := parsedUser })
          else
            .ok { s with env := s.env.push "/dashboard" }

/-- The `catch` block of `markAsRead`. -/
def markAsRead.onCatch (s : State) : State :=
  { s with env := s.env.consoleError "Error marking message as read:" }

/-- The function `markAsRead`: `out` answers the `PUT`, `reload` answers the
request of the `fetchMessages()` it starts on success. -/
def markAsRead (J : JSON) (messageId : JSValue) (out reload : NetOutcome) (s : State) :
    State :=
  let request := ⟨.PUT, .messages, J.stringify (.obj [("message_id", messageId)])⟩
  let s0 := { s with env := s.env.fetch request }
  match out with
  | .failed => markAsRead.onCatch s0
  | .json data =>
    match data.getProp "success" with
    | .error _ => markAsRead.onCatch s0
    | .ok success =>
      if success.truthy then
        let s1 := fetchMessages.start s0
        let s2 :=
          if s.selectedMessage.truthy then
            match s.selectedMessage.getProp "id" with
            | .error _ => markAsRead.onCatch s1
            | .ok id =>
              if id.strictEq messageId then
                let updated := .obj (setField s.selectedMessage.ownProps "status" (.str "read"))
                { s1 with selectedMessage := updated }
              else s1
          else s1
        fetchMessages.resume reload s2
      else s0

/-- The function `handleLogout`. -/
def handleLogout (s : State) : State :=
  { s with env := (s.env.removeItem "user").push "/" }

end AdminPanel

/-! ## The dashboard page -/

/-- The `messageData` state of the dashboard. -/
structure MessageData where
  subject : String
  message : String
  deriving DecidableEq, Repr

/-- A form control as the page renders it. -/
structure FormControl where
  name : String
  value : String
  required : Bool
  deriving DecidableEq, Repr

/-- Constraint validation of one control: a `required` control with an empty
value is invalid. -/
def FormControl.valid (c : FormControl) : Bool :=
  !(c.required && decide (c.value = ""))

namespace Dashboard

/-- The state of the `Dashboard` component. -/
structure State where
  user : JSValue
  messageData : MessageData
  userMessages : List JSValue
  loading : Bool
  submitMessage : JSValue
  env : Browser

/-- The state right after the first render. -/
def State.initial (env : Browser) : State :=
  { user := .null, messageData := ⟨"", ""⟩, userMessages := [], loading := false,
    submitMessage := .str "", env := env }

/-- The part of `fetchUserMessages` up to its first `await`: the request. -/
def fetchUserMessages.start (userId : JSValue) (s : State) : State :=
  { s with env := s.env.fetch ⟨.GET, .messagesOfUser userId, none⟩ }

/-- The rest of `fetchUserMessages`, once the response is known. -/
def fetchUserMessages.resume (out : NetOutcome) (s : State) : State :=
  match out with
  | .failed => { s with env := s.env.consoleError "Error fetching messages:" }
  | .json (.arr items) => { s with userMessages := items }
  | .json _ => s

/-- The function `fetchUserMessages`, run to completion. -/
def fetchUserMessages (userId : JSValue) (out : NetOutcome) (s : State) : State :=
  fetchUserMessages.resume out (fetchUserMessages.start userId s)

/-- The effect run on mount: the route guard of the dashboard. -/
def useEffect (J : JSON) (s : State) : Except JSError State :=
  match s.env.getItem "user" with
  | none => .ok { s with env := s.env.push "/" }
  | some userData =>
    if userData = "" then .ok { s with env := s.env.push "/" }
    else
      match J.parse userData with
      | .error e => .error e
      | .ok parsedUser =>
        match parsedUser.getProp "role" with
        | .error e => .error e
        | .ok role =>
          if role.strictEq (.str "admin") then
            .ok { s with env := s.env.push "/admin" }
          else
            match parsedUser.getProp "id" with
            | .error e => .error e
            | .ok id => .ok (fetchUserMessages.start id { s with user := parsedUser })

/-- The object `{user_id: user.id, subject, message}` that `handleSubmit`
posts. -/
def payload (userId : JSValue) (d : MessageData) : JSValue :=
  .obj [("user_id", userId), ("subject", .str d.subject), ("message", .str d.message)]

/-- The `catch` block of `handleSubmit`, followed by its `finally`. -/
def handleSubmit.onCatch (s : State) : State :=
  { s with submitMessage := .str "An error occurred. Please try again.", loading := false }

/-- The function `handleSubmit`: `out` answers the `POST`, `reload` answers
the request of the `fetchUserMessages(user.id)` it starts on success. -/
def handleSubmit (J : JSON) (out reload : NetOutcome) (s : State) : State :=
  if !s.user.truthy then s
  else
    let s0 := { s with loading := true, submitMessage := .str "" }
    match s.user.getProp "id" with
    | .error _ => handleSubmit.onCatch s0
    | .ok userId =>
      let request := ⟨.POST, .messages, J.stringify (payload userId s.messageData)⟩
      let s1 := { s0 with env := s0.env.fetch request }
      match out with
      | .failed => handleSubmit.onCatch s1
      | .json data =>
        match data.getProp "success" with
        | .error _ => handleSubmit.onCatch s1
        | .ok success =>
          if success.truthy then
            let s2 := { s1 with submitMessage := .str "Message sent successfully!",
                                messageData := ⟨"", ""⟩ }
            let s3 := fetchUserMessages.start userId s2
            fetchUserMessages.resume reload { s3 with loading := false }
          else
            match data.getProp "message" with
            | .error _ => handleSubmit.onCatch s1
            | .ok message =>
              { s1 with submitMessage := message.orElse (.str "Failed to send message"),
                        loading := false }

/-- The controls of the message form: `subject` and `message`, both
`required`, each showing its field of `messageData`. -/
def formControls (s : State) : List FormControl :=
  [⟨"subject", s.messageData.subject, true⟩, ⟨"message", s.messageData.message, true⟩]

/-- Submitting the message form.  The form exists only once `user` is set;
the browser validates the controls first and dispatches the `submit` event,
which runs `handleSubmit`, only if all of them are valid. -/
def submitForm (J : JSON) (out reload : NetOutcome) (s : State) : State :=
  if !s.user.truthy then s
  else if (formControls s).all FormControl.valid then handleSubmit J out reload s
  else s

/-- The function `handleLogout`. -/
def handleLogout (s : State) : State :=
  { s with env := (s.env.removeItem "user").push "/" }

end Dashboard

/-! ## The landing page -/

/-- The `formData` state of the landing page. -/
structure FormData where
  username : String
  email : String
  password : String
  deriving DecidableEq, Repr

namespace Home

/-- The state of the `Home` component. -/
structure State where
  isLogin : Bool
  formData : FormData
  loading : Bool
  message : JSValue
  env : Browser

/-- The state right after the first render. -/
def State.initial (env : Browser) : State :=
  { isLogin := true, formData := ⟨"", "", ""⟩, loading := false, message := .str "",
    env := env }

/-- The effect run on mount: a visitor with a stored session is sent on. -/
def useEffect (J : JSON) (s : State) : Except JSError State :=
  match s.env.getItem "user" with
  | none => .ok s
  | some user =>
    if user = "" then .ok s
    else
      match J.parse user with
      | .error e => .error e
      | .ok userData =>
        match userData.getProp "role" with
        | .error e => .error e
        | .ok role =>
          if role.strictEq (.str "admin") then .ok { s with env := s.env.push "/admin" }
          else .ok { s with env := s.env.push "/dashboard" }

/-- The constant `payload` of `handleSubmit`. -/
def payload (s : State) : JSValue :=
  if s.isLogin then
    .obj [("action", .str "login"), ("email", .str s.formData.email),
          ("password", .str s.formData.password)]
  else
    .obj [("action", .str "register"), ("username", .str s.formData.username),
          ("email", .str s.formData.email), ("password", .str s.formData.password)]

/-- The `catch` block of `handleSubmit`. -/
def handleSubmit.onCatch (s : State) : State :=
  { s with message := .str "An error occurred. Please try again." }

/-- The function `handleSubmit`, given the outcome of its request. -/
def handleSubmit (J : JSON) (out : NetOutcome) (s : State) : State :=
  let s0 := { s with loading := true, message := .str "" }
  let s1 := { s0 with env := s0.env.fetch ⟨.POST, .auth, J.stringify (payload s)⟩ }
  let afterTry :=
    match out with
    | .failed => handleSubmit.onCatch s1
    | .json data =>
      match data.getProp "success" with
      | .error _ => handleSubmit.onCatch s1
      | .ok success =>
        if success.truthy then
          if s.isLogin then
            match data.getProp "user" with
            | .error _ => handleSubmit.onCatch s1
            | .ok user =>
              let text := (J.stringify user).getD "undefined"
              let s2 := { s1 with env := s1.env.setItem "user" text }
              match user.getProp "role" with
              | .error _ => handleSubmit.onCatch s2
              | .ok role =>
                if role.strictEq (.str "admin") then { s2 with env := s2.env.push "/admin" }
                else { s2 with env := s2.env.push "/dashboard" }
          else
            { s1 with message := .str "Registration successful! Please login.",
                      isLogin := true, formData := ⟨"", "", ""⟩ }
        else
          match data.getProp "message" with
          | .error _ => handleSubmit.onCatch s1
          | .ok message => { s1 with message := message }
  { afterTry with loading := false }

/-- The `onClick` of the button that switches between the two forms. -/
def toggleMode (s : State) : State :=
  { s with isLogin := !s.isLogin, formData := ⟨"", "", ""⟩, message := .str "" }

end Home

/-! ## Routes -/

/-- The three pages of the application, by the file that serves each:
`app/page.js`, `app/dashboard/page.js` and `app/admin/page.js`. -/
inductive Route where
  | home
  | dashboard
  | admin
  deriving DecidableEq, Repr

namespace Route

/-- The path of a page. -/
def path : Route → String
  | home => "/"
  | dashboard => "/dashboard"
  | admin => "/admin"

/-- The page a path leads to, if any. -/
def ofPath (p : String) : Option Route :=
  if p = "/" then some home
  else if p = "/dashboard" then some dashboard
  else if p = "/admin" then some admin
  else none

/-- Mounting the page of a route in a browser: its component starts from its
first render and runs its mount effect; the result is the browser after it. -/
def mount (J : JSON) (env : Browser) : Route → Except JSError Browser
  | home => (Home.useEffect J (Home.State.initial env)).map (fun s => s.env)
  | dashboard => (Dashboard.useEffect J (Dashboard.State.initial env)).map (fun s => s.env)
  | admin => (AdminPanel.useEffect J (AdminPanel.State.initial env)).map (fun s => s.env)

/-- The path the mount effect pushed, if it pushed one. -/
def pushed (before after : Browser) : Option String :=
  (after.pushes.drop before.pushes.length).head?

/-- The redirect the page of a route issues on mount: `none` when the page
keeps the visitor. -/
def redirect (J : JSON) (env : Browser) (r : Route) : Except JSError (Option String) :=
  (mount J env r).map (pushed env)

/-- Following redirects from a route, at most `fuel` pages being mounted:
the page the visitor comes to rest on, or `none` when the redirects have not
ended by then (or lead outside the three pages). -/
def settle (J : JSON) : Nat → Browser → Route → Except JSError (Option Route)
  | 0, _, _ => .ok none
  | fuel + 1, env, r =>
    match mount J env r with
    | .error e => .error e
    | .ok env' =>
      match pushed env env' with
      | none => .ok (some r)
      | some p =>
        match ofPath p with
        | none => .ok none
        | some r' => settle J fuel env' r'

end Route

/-! ## A model of the platform's JSON codec -/

namespace JSONText

/-- JSON whitespace: space, tab, line feed, carriage return. -/
def isWhitespace (c : Char) : Bool :=
  c = ' ' || c = '\t' || c = '\n' || c = '\r'

/-- Dropping leading whitespace. -/
def skipWs : List Char → List Char
  | [] => []
  | c :: rest => if isWhitespace c then skipWs rest else c :: rest

/-- A decimal digit. -/
def isDigit (c : Char) : Bool :=
  decide (48 ≤ c.toNat ∧ c.toNat ≤ 57)

/-- The value of a decimal digit. -/
def digitVal (c : Char) : Nat :=
  c.toNat - 48

/-- The digit of a value below ten. -/
def digitChar (d : Nat) : Char :=
  Char.ofNat (48 + d)

/-- The number a run of decimal digits denotes. -/
def digitsValue (cs : List Char) : Nat :=
  cs.foldl (fun a c => 10 * a + digitVal c) 0

/-- The digits of `n`, most significant first; `fuel` bounds their number. -/
def natTextFuel : Nat → Nat → List Char
  | 0, _ => []
  | fuel + 1, n =>
    if n < 10 then [digitChar n]
    else natTextFuel fuel (n / 10) ++ [digitChar (n % 10)]

/-- The decimal text of a natural number. -/
def natText (n : Nat) : List Char :=
  natTextFuel (n + 1) n

/-- The least number of decimal places in which `q` is exact, if there is
one: the rationals a JSON number can denote are those with such a number. -/
def decimalPlaces (q : ℚ) : Option Nat :=
  (List.range (q.den + 1)).find? (fun k => 10 ^ k % q.den = 0)

/-- Zeros in front of a run of digits, up to `k` digits in all. -/
def padZeros (k : Nat) (cs : List Char) : List Char :=
  List.replicate (k - cs.length) '0' ++ cs

/-- The text of `n / d` with `k` decimal places. -/
def unsignedText (n d k : Nat) : List Char :=
  natText (n * 10 ^ k / d / 10 ^ k)
    ++ (if k = 0 then [] else '.' :: padZeros k (natText (n * 10 ^ k / d % 10 ^ k)))

/-- The text of a number: its decimal expansion; `null`, as for a number
that is not finite, when it has none. -/
def numberText (q : ℚ) : List Char :=
  match decimalPlaces q with
  | none => ['n', 'u', 'l', 'l']
  | some k => (if q.num < 0 then ['-'] else []) ++ unsignedText q.num.natAbs q.den k

/-- A lower-case hexadecimal digit. -/
def hexChar (n : Nat) : Char :=
  if n < 10 then Char.ofNat (48 + n) else Char.ofNat (87 + n)

/-- The value of a hexadecimal digit. -/
def hexVal (c : Char) : Option Nat :=
  if isDigit c then some (c.toNat - 48)
  else if 97 ≤ c.toNat ∧ c.toNat ≤ 102 then some (c.toNat - 87)
  else if 65 ≤ c.toNat ∧ c.toNat ≤ 70 then some (c.toNat - 55)
  else none

/-- The value of four hexadecimal digits. -/
def hex4 (a b c d : Char) : Option Nat :=
  match hexVal a, hexVal b, hexVal c, hexVal d with
  | some x, some y, some z, some w => some (((x * 16 + y) * 16 + z) * 16 + w)
  | _, _, _, _ => none

/-- One character inside a string literal, as `QuoteJSONString` writes it. -/
def quoteChar (c : Char) : List Char :=
  if c = '\x22' then ['\x5c', '\x22']
  else if c = '\x5c' then ['\x5c', '\x5c']
  else if c = '\x08' then ['\x5c', 'b']
  else if c = '\x0c' then ['\x5c', 'f']
  else if c = '\n' then ['\x5c', 'n']
  else if c = '\r' then ['\x5c', 'r']
  else if c = '\t' then ['\x5c', 't']
  else if c.toNat < 32 then
    ['\x5c', 'u', '0', '0', hexChar (c.toNat / 16), hexChar (c.toNat % 16)]
  else [c]

/-- The characters of a string literal without its quotes. -/
def quoteChars : List Char → List Char
  | [] => []
  | c :: rest => quoteChar c ++ quoteChars rest

/-- A string literal. -/
def quote (s : String) : List Char :=
  '\x22' :: (quoteChars s.toList ++ ['\x22'])

/-- Texts joined by commas. -/
def joinComma : List (List Char) → List Char
  | [] => []
  | [x] => x
  | x :: y :: rest => x ++ ',' :: joinComma (y :: rest)

mutual
/-- The text `SerializeJSONProperty` gives a value; `undefined`, which has
none, is written `null` here, as it is inside an array. -/
def text : JSValue → List Char
  | .undefined => ['n', 'u', 'l', 'l']
  | .null => ['n', 'u', 'l', 'l']
  | .bool true => ['t', 'r', 'u', 'e']
  | .bool false => ['f', 'a', 'l', 's', 'e']
  | .num q => numberText q
  | .str s => quote s
  | .arr items => '[' :: (joinComma (itemTexts items) ++ [']'])
  | .obj props => '\x7b' :: (joinComma (memberTexts props) ++ ['\x7d'])
/-- The texts of the elements of an array. -/
def itemTexts : List JSValue → List (List Char)
  | [] => []
  | v :: rest => text v :: itemTexts rest
/-- The texts of the members of an object; a property whose value is
`undefined` is left out. -/
def memberTexts : List (String × JSValue) → List (List Char)
  | [] => []
  | (_, .undefined) :: rest => memberTexts rest
  | (k, v) :: rest => (quote k ++ ':' :: text v) :: memberTexts rest
end

/-- The function `JSON.stringify` of one argument. -/
def stringify : JSValue → Option String
  | .undefined => none
  | v => some (String.mk (text v))

/-- The character a one-letter escape stands for. -/
def simpleEscape (e : Char) : Option Char :=
  if e = '\x22' then some '\x22'
  else if e = '\x5c' then some '\x5c'
  else if e = '/' then some '/'
  else if e = 'b' then some '\x08'
  else if e = 'f' then some '\x0c'
  else if e = 'n' then some '\n'
  else if e = 'r' then some '\r'
  else if e = 't' then some '\t'
  else none

/-- The escape of a low surrogate that must follow the high surrogate `n`,
and the character the pair stands for. -/
def decodeLowSurrogate (n : Nat) : List Char → Option (Char × List Char)
  | s1 :: s2 :: a :: b :: c :: d :: r =>
    if s1 = '\x5c' ∧ s2 = 'u' then
      match hex4 a b c d with
      | none => none
      | some m =>
        if 0xDC00 ≤ m ∧ m < 0xE000 then
          some (Char.ofNat (0x10000 + (n - 0xD800) * 0x400 + (m - 0xDC00)), r)
        else none
    else none
  | _ => none

/-- What follows `\u`: four hexadecimal digits, and a second escape when they
are a high surrogate.  A lone surrogate has no `Char` and is refused. -/
def decodeUnicode : List Char → Option (Char × List Char)
  | a :: b :: c :: d :: r =>
    match hex4 a b c d with
    | none => none
    | some n =>
      if 0xD800 ≤ n ∧ n < 0xDC00 then decodeLowSurrogate n r
      else if 0xDC00 ≤ n ∧ n < 0xE000 then none
      else some (Char.ofNat n, r)
  | _ => none

/-- What follows a backslash: the character it stands for and the rest. -/
def decodeEscape : List Char → Option (Char × List Char)
  | [] => none
  | e :: r =>
    if e = 'u' then decodeUnicode r
    else (simpleEscape e).map (fun x => (x, r))

/-- The characters of a string literal up to its closing quote, decoded, and
what follows the quote; `fuel` bounds the number of characters. -/
def parseChars : Nat → List Char → Option (List Char × List Char)
  | 0, _ => none
  | _ + 1, [] => none
  | fuel + 1, c :: rest =>
    if c = '\x22' then some ([], rest)
    else if c = '\x5c' then
      match decodeEscape rest with
      | none => none
      | some (x, r) => (parseChars fuel r).map (fun p => (x :: p.1, p.2))
    else if c.toNat < 32 then none
    else (parseChars fuel rest).map (fun p => (c :: p.1, p.2))

/-- A string literal after its opening quote. -/
def parseString (cs : List Char) : Option (String × List Char) :=
  (parseChars (cs.length + 1) cs).map (fun p => (String.mk p.1, p.2))

/-- The digits an exponent part holds and what follows them; `none` when the
part is malformed, an exponent of zero when there is none. -/
def parseExponent (cs : List Char) : Option ((Bool × Nat) × List Char) :=
  match cs with
  | [] => some ((false, 0), cs)
  | c :: rest =>
    if c = 'e' ∨ c = 'E' then
      let signed : Bool × List Char :=
        match rest with
        | [] => (false, rest)
        | s :: r => if s = '-' then (true, r) else if s = '+' then (false, r) else (false, rest)
      let digits := signed.2.takeWhile isDigit
      if digits = [] then none
      else some ((signed.1, digitsValue digits), signed.2.dropWhile isDigit)
    else some ((false, 0), cs)

/-- The digits a fraction part holds and what follows them; `none` when the
part is malformed, no digits when there is none. -/
def parseFraction (cs : List Char) : Option (List Char × List Char) :=
  match cs with
  | [] => some ([], cs)
  | c :: rest =>
    if c = '.' then
      let digits := rest.takeWhile isDigit
      if digits = [] then none else some (digits, rest.dropWhile isDigit)
    else some ([], cs)

/-- An unsigned JSON number at the front of the text. -/
def parseUnsigned (cs : List Char) : Option (ℚ × List Char) :=
  let whole := cs.takeWhile isDigit
  if whole = [] then none
  else if 1 < whole.length ∧ whole.head? = some '0' then none
  else
    match parseFraction (cs.dropWhile isDigit) with
    | none => none
    | some (fraction, afterFraction) =>
      match parseExponent afterFraction with
      | none => none
      | some ((negative, e), rest) =>
        let mantissa : ℚ := (digitsValue (whole ++ fraction) : ℚ) / 10 ^ fraction.length
        some (if negative then mantissa / 10 ^ e else mantissa * 10 ^ e, rest)

/-- A JSON number at the front of the text. -/
def parseNumber (cs : List Char) : Option (ℚ × List Char) :=
  match cs with
  | [] => none
  | c :: rest =>
    if c = '-' then (parseUnsigned rest).map (fun p => (-p.1, p.2))
    else parseUnsigned cs

mutual
/-- A JSON value at the front of the text, after whitespace. -/
def parseValue : Nat → List Char → Option (JSValue × List Char)
  | 0, _ => none
  | fuel + 1, cs =>
    match skipWs cs with
    | [] => none
    | c :: rest =>
      if c = '\x22' then (parseString rest).map (fun p => (.str p.1, p.2))
      else if c = '[' then
        if (skipWs rest).head? = some ']' then some (.arr [], (skipWs rest).tail)
        else (parseItems fuel (skipWs rest)).map (fun p => (.arr p.1, p.2))
      else if c = '\x7b' then
        if (skipWs rest).head? = some '\x7d' then some (.obj [], (skipWs rest).tail)
        else (parseMembers fuel (skipWs rest) []).map (fun p => (.obj p.1, p.2))
      else if c = 'n' then
        match rest with
        | 'u' :: 'l' :: 'l' :: rest' => some (.null, rest')
        | _ => none
      else if c = 't' then
        match rest with
        | 'r' :: 'u' :: 'e' :: rest' => some (.bool true, rest')
        | _ => none
      else if c = 'f' then
        match rest with
        | 'a' :: 'l' :: 's' :: 'e' :: rest' => some (.bool false, rest')
        | _ => none
      else (parseNumber (c :: rest)).map (fun p => (.num p.1, p.2))
/-- The elements of an array and its closing bracket. -/
def parseItems : Nat → List Char → Option (List JSValue × List Char)
  | 0, _ => none
  | fuel + 1, cs =>
    match parseValue fuel cs with
    | none => none
    | some (v, rest) =>
      match skipWs rest with
      | [] => none
      | d :: rest' =>
        if d = ',' then (parseItems fuel rest').map (fun p => (v :: p.1, p.2))
        else if d = ']' then some ([v], rest')
        else none
/-- The members of an object and its closing brace, added to those read so
far; a key that is read again takes the later value. -/
def parseMembers : Nat → List Char → List (String × JSValue) →
    Option (List (String × JSValue) × List Char)
  | 0, _, _ => none
  | fuel + 1, cs, acc =>
    match skipWs cs with
    | [] => none
    | q :: afterQuote =>
      if q = '\x22' then
        match parseString afterQuote with
        | none => none
        | some (key, afterKey) =>
          match skipWs afterKey with
          | [] => none
          | colon :: afterColon =>
            if colon = ':' then
              match parseValue fuel afterColon with
              | none => none
              | some (v, rest) =>
                match skipWs rest with
                | [] => none
                | d :: rest' =>
                  if d = ',' then parseMembers fuel rest' (setField acc key v)
                  else if d = '\x7d' then some (setField acc key v, rest')
                  else none
            else none
      else none
end

/-- The function `JSON.parse` of one argument. -/
def parse (s : String) : Except JSError JSValue :=
  match parseValue (2 * s.length + 2) s.toList with
  | none => .error .SyntaxError
  | some (v, rest) => if skipWs rest = [] then .ok v else .error .SyntaxError

/-- What may follow a number: nothing that would continue it. -/
def numberEnds : List Char → Bool
  | [] => true
  | c :: _ => !isDigit c && decide (c ≠ '.') && decide (c ≠ 'e') && decide (c ≠ 'E')

mutual
/-- The values a JSON text can denote: no `undefined` anywhere, numbers with a
finite decimal expansion, objects whose keys are distinct. -/
def isJSON : JSValue → Bool
  | .undefined => false
  | .null => true
  | .bool _ => true
  | .num q => (decimalPlaces q).isSome
  | .str _ => true
  | .arr items => allJSON items
  | .obj props => membersJSON props
/-- Every element is such a value. -/
def allJSON : List JSValue → Bool
  | [] => true
  | v :: rest => isJSON v && allJSON rest
/-- Every property holds such a value, under a key not used again. -/
def membersJSON : List (String × JSValue) → Bool
  | [] => true
  | (k, v) :: rest => isJSON v && decide (k ∉ rest.map Prod.fst) && membersJSON rest
end

/-- What may follow a value inside a text: nothing, a comma, or a closing
bracket or brace. -/
def endsValue : List Char → Bool
  | [] => true
  | c :: _ => c = ',' || c = ']' || c = '\x7d'

end JSONText

/-- The codec of the platform, as modelled by `JSONText`. -/
def JSON.ecma : JSON :=
  { parse := JSONText.parse, stringify := JSONText.stringify }

/-- A message whose `status` is exactly the given string. -/
def hasStatus (status : String) (m : JSValue) : Bool :=
  match m with
  | .obj props =>
    match props.lookup "status" with
    | some (.str s) => s == status
    | _ => false
  | _ => false

/-- The array `[{status:"unread"}, {status:"read"}, {status:"unread"}]`. -/
def threeMessages : List JSValue :=
  [.obj [("status", .str "unread")], .obj [("status", .str "read")],
   .obj [("status", .str "unread")]]

/-- A codec that knows a single JSON text and the value it denotes; the
theorems on the pages hold for every codec and are instantiated at this one. -/
def JSON.ofPair (text : String) (value : JSValue) : JSON :=
  { parse := fun t => if t = text then .ok value else .error .SyntaxError,
    stringify := fun _ => some text }

/-- A session record of an ordinary user. -/
def sampleUser : JSValue :=
  .obj [("id", .num 7), ("username", .str "ann"), ("email", .str "ann@example.com"),
        ("role", .str "user")]

/-- A session record of an administrator. -/
def sampleAdmin : JSValue :=
  .obj [("id", .num 1), ("username", .str "root"), ("email", .str "admin@example.com"),
        ("role", .str "admin")]

/-- A browser whose only stored entry is `user`, holding `text`. -/
def browserWith (text : String) : Browser :=
  ⟨[("user", text)], [], [], []⟩

/-- A browser with nothing stored. -/
def emptyBrowser : Browser :=
  ⟨[], [], [], []⟩

/-- The admin state in which message 5, unread, is selected. -/
def adminWithSelected : AdminPanel.State :=
  { AdminPanel.State.initial emptyBrowser with
    selectedMessage := .obj [("id", .num 5), ("subject", .str "hi"), ("status", .str "unread")] }

/-! ## Lemmas on values -/

theorem strictEq_str_iff (v : JSValue) (s : String) :
    v.strictEq (.str s) = true ↔ v = .str s := by
  cases v <;> simp [JSValue.strictEq]

theorem getProp_ok_of_not_nullish (v : JSValue) (k : String) (h : v.isNullish = false) :
    ∃ x, v.getProp k = .ok x := by
  cases v <;> simp [JSValue.isNullish] at h <;> simp [JSValue.getProp]
  case obj props => cases props.lookup k <;> simp

theorem status_test_eq_hasStatus (m : JSValue) (status : String) (x : JSValue)
    (h : m.getProp "status" = .ok x) :
    x.strictEq (.str status) = hasStatus status m := by
  cases m <;> simp [JSValue.getProp] at h <;> try (subst h; simp [JSValue.strictEq, hasStatus])
  case obj props =>
    cases hl : props.lookup "status" with
    | none => simp [hl] at h; subst h; simp [JSValue.strictEq, hasStatus, hl]
    | some y =>
      simp [hl] at h; subst h
      cases y <;> simp [JSValue.strictEq, hasStatus, hl]

theorem filterByStatus_eq_filter (status : String) (items : List JSValue)
    (h : ∀ m ∈ items, m.isNullish = false) :
    filterByStatus status items = .ok (items.filter (hasStatus status)) := by
  induction items with
  | nil => rfl
  | cons m rest ih =>
    obtain ⟨x, hx⟩ := getProp_ok_of_not_nullish m "status" (h m (by simp))
    have ih' := ih (fun m' hm' => h m' (by simp [hm']))
    simp only [filterByStatus, hx, ih', List.filter_cons]
    rw [status_test_eq_hasStatus m status x hx]

theorem strictEq_str_false (v : JSValue) (s : String) (h : v ≠ .str s) :
    v.strictEq (.str s) = false := by
  cases hb : v.strictEq (.str s) with
  | false => rfl
  | true => exact absurd ((strictEq_str_iff v s).1 hb) h

theorem lookup_setField_same (props : List (String × JSValue)) (k : String) (v : JSValue) :
    (setField props k v).lookup k = some v := by
  induction props with
  | nil => simp [setField, List.lookup]
  | cons p rest ih =>
    obtain ⟨k', v'⟩ := p
    by_cases hk : k' = k
    · simp [setField, hk, List.lookup]
    · have hk' : (k == k') = false := by simpa using fun h => hk h.symm
      simp [setField, hk, List.lookup, hk', ih]

theorem lookup_setField_other (props : List (String × JSValue)) (k j : String) (v : JSValue)
    (hj : j ≠ k) : (setField props k v).lookup j = props.lookup j := by
  induction props with
  | nil =>
    have hjk : (j == k) = false := by simpa using hj
    simp [setField, List.lookup, hjk]
  | cons p rest ih =>
    obtain ⟨k', v'⟩ := p
    by_cases hk : k' = k
    · subst hk
      have hjk : (j == k') = false := by simpa using hj
      simp [setField, List.lookup, hjk]
    · simp only [setField, hk, if_false, List.lookup]
      cases j == k' <;> simp [ih]

theorem getItem_setItem (b : Browser) (k v : String) : (b.setItem k v).getItem k = some v := by
  simp [Browser.setItem, Browser.getItem, List.lookup]

theorem fetchMessages_body_frame (data : JSValue) (t : AdminPanel.State) :
    (AdminPanel.fetchMessages.body data t).2.env = t.env
    ∧ (AdminPanel.fetchMessages.body data t).2.selectedMessage = t.selectedMessage
    ∧ (AdminPanel.fetchMessages.body data t).2.user = t.user := by
  unfold AdminPanel.fetchMessages.body
  split
  · split
    · exact ⟨rfl, rfl, rfl⟩
    · split <;> exact ⟨rfl, rfl, rfl⟩
  · exact ⟨rfl, rfl, rfl⟩

theorem fetchMessages_body_messages (items : List JSValue) (t : AdminPanel.State) :
    (AdminPanel.fetchMessages.body (.arr items) t).2.messages = items := by
  simp only [AdminPanel.fetchMessages.body]
  split
  · rfl
  · split <;> rfl

theorem fetchMessages_resume_frame (out : NetOutcome) (t : AdminPanel.State) :
    (AdminPanel.fetchMessages.resume out t).env.pushes = t.env.pushes
    ∧ (AdminPanel.fetchMessages.resume out t).env.requests = t.env.requests
    ∧ (AdminPanel.fetchMessages.resume out t).env.localStorage = t.env.localStorage
    ∧ (AdminPanel.fetchMessages.resume out t).selectedMessage = t.selectedMessage
    ∧ (AdminPanel.fetchMessages.resume out t).user = t.user := by
  cases out with
  | failed => exact ⟨rfl, rfl, rfl, rfl, rfl⟩
  | json data =>
    obtain ⟨henv, hsel, husr⟩ := fetchMessages_body_frame data t
    simp only [AdminPanel.fetchMessages.resume]
    rcases hb : AdminPanel.fetchMessages.body data t with ⟨_ | e, t'⟩ <;>
      rw [hb] at henv hsel husr <;> simp only at henv hsel husr ⊢ <;>
      simp [henv, hsel, husr, Browser.consoleError]

theorem fetchMessages_resume_messages (items : List JSValue) (t : AdminPanel.State) :
    (AdminPanel.fetchMessages.resume (.json (.arr items)) t).messages = items := by
  have hm := fetchMessages_body_messages items t
  simp only [AdminPanel.fetchMessages.resume]
  rcases hb : AdminPanel.fetchMessages.body (.arr items) t with ⟨_ | e, t'⟩ <;>
    rw [hb] at hm <;> simp only at hm ⊢ <;> exact hm

theorem fetchMessages_resume_loading (out : NetOutcome) (t : AdminPanel.State) :
    (AdminPanel.fetchMessages.resume out t).loading = false := rfl

theorem Home_handleSubmit_requests (J : JSON) (out : NetOutcome) (s : Home.State) :
    (Home.handleSubmit J out s).env.requests
      = s.env.requests ++ [⟨.POST, .auth, J.stringify (Home.payload s)⟩] := by
  simp only [Home.handleSubmit]
  cases out with
  | failed => rfl
  | json data =>
    simp only []
    split
    · rfl
    · split
      · split
        · split
          · rfl
          · split
            · rfl
            · split <;> rfl
        · rfl
      · split <;> rfl

theorem fetchUserMessages_resume_loading (out : NetOutcome) (t : Dashboard.State) :
    (Dashboard.fetchUserMessages.resume out t).loading = t.loading := by
  unfold Dashboard.fetchUserMessages.resume
  split <;> rfl

/-- A stored text that the codec rejects, or that denotes `null`, is no
session record: the guards raise on it. -/
theorem guards_raise_without_record (J : JSON) (d : Dashboard.State) (a : AdminPanel.State)
    (text : String) (e : JSError) (hd : d.env.getItem "user" = some text)
    (ha : a.env.getItem "user" = some text) (hne : text ≠ "")
    (hp : J.parse text = .error e ∨ (J.parse text = .ok .null ∧ e = .TypeError)) :
    Dashboard.useEffect J d = .error e ∧ AdminPanel.useEffect J a = .error e := by
  rcases hp with hp | ⟨hp, he⟩
  · simp [Dashboard.useEffect, AdminPanel.useEffect, hd, ha, hne, hp]
  · simp [Dashboard.useEffect, AdminPanel.useEffect, hd, ha, hne, hp, he, JSValue.getProp]

/-- The handler `handleSubmit` of the dashboard does not look at the fields:
called with a user set, it posts whatever `messageData` holds. -/
theorem Dashboard_handleSubmit_posts (J : JSON) (out reload : NetOutcome) (s : Dashboard.State)
    (userId : JSValue) (huser : s.user.truthy = true) (hid : s.user.getProp "id" = .ok userId) :
    ∃ rest, (Dashboard.handleSubmit J out reload s).env.requests
      = s.env.requests
        ++ ⟨.POST, .messages, J.stringify (Dashboard.payload userId s.messageData)⟩ :: rest := by
  simp only [Dashboard.handleSubmit, huser, hid, Bool.not_true, Bool.false_eq_true, if_false]
  cases out with
  | failed => exact ⟨[], rfl⟩
  | json data =>
    simp only []
    split
    · exact ⟨[], rfl⟩
    · split
      · cases reload with
        | failed => exact ⟨[⟨.GET, .messagesOfUser userId, none⟩], by
            simp [Dashboard.fetchUserMessages.resume, Dashboard.fetchUserMessages.start,
              Browser.fetch, Browser.consoleError]⟩
        | json r =>
          refine ⟨[⟨.GET, .messagesOfUser userId, none⟩], ?_⟩
          cases r <;> simp [Dashboard.fetchUserMessages.resume,
            Dashboard.fetchUserMessages.start, Browser.fetch]
      · split <;> exact ⟨[], rfl⟩

theorem fetchMessages_body_not_array (data : JSValue) (t : AdminPanel.State)
    (h : data.isArray = false) : AdminPanel.fetchMessages.body data t = (none, t) := by
  cases data <;> simp [JSValue.isArray] at h <;> rfl

theorem fetchMessages_stats_of_messages (items : List JSValue) (s : AdminPanel.State)
    (h : ∀ m ∈ items, m.isNullish = false) :
    (AdminPanel.fetchMessages (.json (.arr items)) s).stats
      = ⟨items.length, (items.filter (hasStatus "unread")).length,
          (items.filter (hasStatus "read")).length⟩ := by
  simp [AdminPanel.fetchMessages, AdminPanel.fetchMessages.resume,
    AdminPanel.fetchMessages.body, filterByStatus_eq_filter _ items h]

theorem hasStatus_unread_read_exclusive (m : JSValue) (h : hasStatus "unread" m = true) :
    hasStatus "read" m = false := by
  unfold hasStatus at h ⊢
  split at h
  · split at h
    · simp only [beq_iff_eq] at h
      subst h
      decide
    · exact absurd h (by simp)
  · exact absurd h (by simp)

theorem filter_lengths_le (p q : JSValue → Bool) (items : List JSValue)
    (hpq : ∀ m, p m = true → q m = false) :
    (items.filter p).length + (items.filter q).length ≤ items.length
    ∧ ((items.filter p).length + (items.filter q).length = items.length
        ↔ ∀ m ∈ items, p m = true ∨ q m = true) := by
  induction items with
  | nil => simp
  | cons m rest ih =>
    obtain ⟨hle, hiff⟩ := ih
    cases hp : p m with
    | true =>
      have hq := hpq m hp
      simp only [List.filter_cons, hp, hq, if_true, List.length_cons, List.mem_cons,
        forall_eq_or_imp, Bool.false_eq_true, if_false, or_false, true_and]
      refine ⟨by omega, ?_⟩
      rw [← hiff]
      omega
    | false =>
      cases hq : q m with
      | true =>
        simp only [List.filter_cons, hp, hq, if_true, List.length_cons, List.mem_cons,
          forall_eq_or_imp, Bool.false_eq_true, if_false, or_true, true_and]
        refine ⟨by omega, ?_⟩
        rw [← hiff]
        omega
      | false =>
        simp only [List.filter_cons, hp, hq, List.length_cons, List.mem_cons,
          forall_eq_or_imp, Bool.false_eq_true, if_false, or_self, false_and, iff_false]
        refine ⟨by omega, by omega⟩

theorem pushed_push (env : Browser) (p : String) : Route.pushed env (env.push p) = some p := by
  simp [Route.pushed, Browser.push]

theorem pushed_fetch (env : Browser) (r : Request) : Route.pushed env (env.fetch r) = none := by
  simp [Route.pushed, Browser.fetch]

theorem getProp_ok_of_getProp_ok (v x : JSValue) (k j : String) (h : v.getProp k = .ok x) :
    ∃ y, v.getProp j = .ok y := by
  apply getProp_ok_of_not_nullish
  cases v <;> simp [JSValue.getProp] at h <;> rfl

theorem mount_home_of_record (J : JSON) (env : Browser) (text : String)
    (parsedUser role : JSValue) (hget : env.getItem "user" = some text) (hne : text ≠ "")
    (hp : J.parse text = .ok parsedUser) (hrole : parsedUser.getProp "role" = .ok role) :
    Route.mount J env .home
      = .ok (env.push (if role.strictEq (.str "admin") then "/admin" else "/dashboard")) := by
  cases hb : role.strictEq (.str "admin") <;>
    simp [Route.mount, Home.useEffect, hget, hne, hp, hrole, hb, Except.map, Home.State.initial]

theorem mount_dashboard_of_record (J : JSON) (env : Browser) (text : String)
    (parsedUser role : JSValue) (hget : env.getItem "user" = some text) (hne : text ≠ "")
    (hp : J.parse text = .ok parsedUser) (hrole : parsedUser.getProp "role" = .ok role) :
    ∃ id, Route.mount J env .dashboard
      = .ok (if role.strictEq (.str "admin") then env.push "/admin"
          else env.fetch ⟨.GET, .messagesOfUser id, none⟩) := by
  obtain ⟨id, hid⟩ := getProp_ok_of_getProp_ok parsedUser role "role" "id" hrole
  refine ⟨id, ?_⟩
  cases hb : role.strictEq (.str "admin") <;>
    simp [Route.mount, Dashboard.useEffect, hget, hne, hp, hrole, hid, hb, Except.map,
      Dashboard.State.initial, Dashboard.fetchUserMessages.start]

theorem mount_admin_of_record (J : JSON) (env : Browser) (text : String)
    (parsedUser role : JSValue) (hget : env.getItem "user" = some text) (hne : text ≠ "")
    (hp : J.parse text = .ok parsedUser) (hrole : parsedUser.getProp "role" = .ok role) :
    Route.mount J env .admin
      = .ok (if role.strictEq (.str "admin") then env.fetch ⟨.GET, .messagesAdmin, none⟩
          else env.push "/dashboard") := by
  cases hb : role.strictEq (.str "admin") <;>
    simp [Route.mount, AdminPanel.useEffect, hget, hne, hp, hrole, hb, Except.map,
      AdminPanel.State.initial, AdminPanel.fetchMessages.start]

/-! ## Lemmas on the JSON codec -/

namespace JSONText

theorem toNat_digitChar (d : Nat) (h : d < 10) : (digitChar d).toNat = 48 + d := by
  interval_cases d <;> rfl

theorem isDigit_digitChar (d : Nat) (h : d < 10) : isDigit (digitChar d) = true := by
  interval_cases d <;> rfl

theorem digitVal_digitChar (d : Nat) (h : d < 10) : digitVal (digitChar d) = d := by
  interval_cases d <;> rfl

theorem natTextFuel_eq (n : Nat) : ∀ fuel, n < fuel → natTextFuel fuel n = natText n := by
  induction n using Nat.strong_induction_on with
  | _ n ih =>
    intro fuel hf
    obtain ⟨f, rfl⟩ : ∃ f, fuel = f + 1 := ⟨fuel - 1, by omega⟩
    unfold natText
    by_cases h : n < 10
    · simp [natTextFuel, h]
    · have hlt : n / 10 < n := Nat.div_lt_self (by omega) (by omega)
      simp only [natTextFuel, h, if_false]
      rw [ih (n / 10) hlt f (by omega), ih (n / 10) hlt n (by omega)]

theorem natText_lt (n : Nat) (h : n < 10) : natText n = [digitChar n] := by
  simp [natText, natTextFuel, h]

theorem natText_ge (n : Nat) (h : 10 ≤ n) :
    natText n = natText (n / 10) ++ [digitChar (n % 10)] := by
  have hlt : n / 10 < n := Nat.div_lt_self (by omega) (by omega)
  have h' : ¬ n < 10 := by omega
  conv_lhs => unfold natText
  simp only [natTextFuel, h', if_false]
  rw [natTextFuel_eq (n / 10) n hlt]

theorem digitsValue_append_one (xs : List Char) (c : Char) :
    digitsValue (xs ++ [c]) = 10 * digitsValue xs + digitVal c := by
  simp [digitsValue, List.foldl_append]

theorem natText_digits (n : Nat) : ∀ c ∈ natText n, isDigit c = true := by
  induction n using Nat.strong_induction_on with
  | _ n ih =>
    intro c hc
    by_cases h : n < 10
    · rw [natText_lt n h] at hc
      simp at hc
      subst hc
      exact isDigit_digitChar n h
    · rw [natText_ge n (by omega)] at hc
      rcases List.mem_append.1 hc with hc | hc
      · exact ih (n / 10) (Nat.div_lt_self (by omega) (by omega)) c hc
      · simp at hc
        subst hc
        exact isDigit_digitChar _ (Nat.mod_lt _ (by omega))

theorem digitsValue_natText (n : Nat) : digitsValue (natText n) = n := by
  induction n using Nat.strong_induction_on with
  | _ n ih =>
    by_cases h : n < 10
    · rw [natText_lt n h]
      simp [digitsValue, digitVal_digitChar n h]
    · rw [natText_ge n (by omega), digitsValue_append_one,
        ih (n / 10) (Nat.div_lt_self (by omega) (by omega)),
        digitVal_digitChar _ (Nat.mod_lt _ (by omega))]
      omega

theorem natText_ne_nil (n : Nat) : natText n ≠ [] := by
  by_cases h : n < 10
  · rw [natText_lt n h]; simp
  · rw [natText_ge n (by omega)]; simp

theorem natText_head (n : Nat) (h : 1 ≤ n) : (natText n).head? ≠ some '0' := by
  induction n using Nat.strong_induction_on with
  | _ n ih =>
    by_cases h10 : n < 10
    · rw [natText_lt n h10]
      interval_cases n <;> decide
    · rw [natText_ge n (by omega)]
      have hne := natText_ne_nil (n / 10)
      have := ih (n / 10) (Nat.div_lt_self (by omega) (by omega)) (by omega)
      cases hx : natText (n / 10) with
      | nil => exact absurd hx hne
      | cons a l => rw [hx] at this; simpa using this

theorem natText_length_one (n : Nat) (h : 1 < (natText n).length) : 1 ≤ n := by
  by_contra h0
  have : n = 0 := by omega
  subst this
  simp [natText_lt] at h

theorem natText_length_le (n : Nat) : ∀ k, 1 ≤ k → n < 10 ^ k → (natText n).length ≤ k := by
  induction n using Nat.strong_induction_on with
  | _ n ih =>
    intro k hk hn
    by_cases h10 : n < 10
    · rw [natText_lt n h10]; simpa using hk
    · rw [natText_ge n (by omega)]
      obtain ⟨j, rfl⟩ : ∃ j, k = j + 1 := ⟨k - 1, by omega⟩
      have hj : 1 ≤ j := by
        by_contra hj0
        have : j = 0 := by omega
        subst this
        simp at hn
        omega
      have hdiv : n / 10 < 10 ^ j := by
        rw [Nat.div_lt_iff_lt_mul (by omega)]
        rw [pow_succ] at hn
        exact hn
      have := ih (n / 10) (Nat.div_lt_self (by omega) (by omega)) j hj hdiv
      simp
      omega

theorem takeWhile_append_stop (p : Char → Bool) (xs tail : List Char)
    (hall : ∀ c ∈ xs, p c = true) (htail : ∀ c, tail.head? = some c → p c = false) :
    (xs ++ tail).takeWhile p = xs ∧ (xs ++ tail).dropWhile p = tail := by
  induction xs with
  | nil =>
    cases tail with
    | nil => simp
    | cons c r => simp [List.takeWhile, List.dropWhile, htail c rfl]
  | cons x xs ih =>
    have hx := hall x (by simp)
    have := ih (fun c hc => hall c (by simp [hc]))
    simp [List.takeWhile, List.dropWhile, hx, this]

theorem foldl_digits (ys : List Char) : ∀ a : Nat,
    ys.foldl (fun a c => 10 * a + digitVal c) a
      = a * 10 ^ ys.length + ys.foldl (fun a c => 10 * a + digitVal c) 0 := by
  induction ys with
  | nil => intro a; simp
  | cons y ys ih =>
    intro a
    simp only [List.foldl_cons, List.length_cons]
    rw [ih (10 * a + digitVal y), ih (10 * 0 + digitVal y)]
    ring

theorem digitsValue_append (xs ys : List Char) :
    digitsValue (xs ++ ys) = digitsValue xs * 10 ^ ys.length + digitsValue ys := by
  simp only [digitsValue, List.foldl_append]
  exact foldl_digits ys _

theorem digitsValue_replicate_zero (j : Nat) : digitsValue (List.replicate j '0') = 0 := by
  induction j with
  | zero => rfl
  | succ j ih =>
    have : List.replicate (j + 1) '0' = List.replicate j '0' ++ ['0'] := by
      simp [List.replicate_succ']
    rw [this, digitsValue_append_one, ih]
    rfl

theorem digitsValue_padZeros (k : Nat) (cs : List Char) :
    digitsValue (padZeros k cs) = digitsValue cs := by
  simp [padZeros, digitsValue_append, digitsValue_replicate_zero]

theorem padZeros_length (k : Nat) (cs : List Char) (h : cs.length ≤ k) :
    (padZeros k cs).length = k := by
  simp [padZeros]
  omega

theorem padZeros_digits (k : Nat) (cs : List Char) (h : ∀ c ∈ cs, isDigit c = true) :
    ∀ c ∈ padZeros k cs, isDigit c = true := by
  intro c hc
  simp only [padZeros, List.mem_append, List.mem_replicate] at hc
  rcases hc with ⟨_, rfl⟩ | hc
  · rfl
  · exact h c hc

theorem numberEnds_head (rest : List Char) (h : numberEnds rest = true) :
    ∀ c, rest.head? = some c → isDigit c = false ∧ c ≠ '.' ∧ c ≠ 'e' ∧ c ≠ 'E' := by
  intro c hc
  cases rest with
  | nil => simp at hc
  | cons x r =>
    simp at hc
    subst hc
    simp [numberEnds] at h
    exact ⟨h.1.1.1, h.1.1.2, h.1.2, h.2⟩

theorem parseFraction_none (rest : List Char) (h : numberEnds rest = true) :
    parseFraction rest = some ([], rest) := by
  cases rest with
  | nil => rfl
  | cons c r =>
    have := (numberEnds_head _ h c rfl).2.1
    simp [parseFraction, this]

theorem parseExponent_none (rest : List Char) (h : numberEnds rest = true) :
    parseExponent rest = some ((false, 0), rest) := by
  cases rest with
  | nil => rfl
  | cons c r =>
    have := (numberEnds_head _ h c rfl).2.2
    simp [parseExponent, this.1, this.2]

theorem parseUnsigned_unsignedText (n d k : Nat) (rest : List Char)
    (hrest : numberEnds rest = true) :
    parseUnsigned (unsignedText n d k ++ rest)
      = some (((n * 10 ^ k / d : ℕ) : ℚ) / 10 ^ k, rest) := by
  set m := n * 10 ^ k / d with hm
  have hI := natText_digits (m / 10 ^ k)
  have hlead : ¬ (1 < (natText (m / 10 ^ k)).length
      ∧ (natText (m / 10 ^ k)).head? = some '0') := by
    rintro ⟨hlen, hhead⟩
    exact natText_head _ (natText_length_one _ hlen) hhead
  by_cases hk : k = 0
  · subst hk
    have htw := takeWhile_append_stop isDigit (natText (m / 10 ^ 0)) rest hI
      (fun c hc => (numberEnds_head rest hrest c hc).1)
    simp only [unsignedText, if_true, List.append_nil, ← hm]
    simp only [parseUnsigned, htw.1, htw.2, natText_ne_nil, if_false, hlead,
      parseFraction_none rest hrest, parseExponent_none rest hrest]
    simp [digitsValue_natText]
  · have hpos : 0 < 10 ^ k := Nat.pow_pos (by omega)
    have hF := padZeros_digits k (natText (m % 10 ^ k)) (natText_digits _)
    have hFlen : (padZeros k (natText (m % 10 ^ k))).length = k :=
      padZeros_length k _ (natText_length_le _ k (by omega) (Nat.mod_lt _ hpos))
    have htw := takeWhile_append_stop isDigit (natText (m / 10 ^ k))
      ('.' :: (padZeros k (natText (m % 10 ^ k)) ++ rest)) hI
      (fun c hc => by simp at hc; subst hc; rfl)
    have htw2 := takeWhile_append_stop isDigit (padZeros k (natText (m % 10 ^ k))) rest hF
      (fun c hc => (numberEnds_head rest hrest c hc).1)
    have hFne : padZeros k (natText (m % 10 ^ k)) ≠ [] := by
      intro h0
      rw [h0] at hFlen
      simp at hFlen
      omega
    simp only [unsignedText, hk, if_false, ← hm, List.append_assoc, List.cons_append]
    simp only [parseUnsigned, htw.1, htw.2, natText_ne_nil, if_false, hlead, parseFraction,
      if_true, htw2.1, htw2.2, hFne, parseExponent_none rest hrest]
    simp only [digitsValue_append, digitsValue_padZeros, digitsValue_natText, hFlen,
      Bool.false_eq_true, if_false, pow_zero, mul_one]
    rw [Nat.div_add_mod' m (10 ^ k)]

theorem decimalPlaces_dvd (q : ℚ) (k : Nat) (hk : decimalPlaces q = some k) :
    q.den ∣ 10 ^ k := by
  have := List.find?_some hk
  exact Nat.dvd_of_mod_eq_zero (by simpa using this)

theorem scaled_cast (n d k : Nat) (hd : 0 < d) (hdvd : d ∣ 10 ^ k) :
    ((n * 10 ^ k / d : ℕ) : ℚ) / 10 ^ k = (n : ℚ) / d := by
  have hd' : (d : ℚ) ≠ 0 := by exact_mod_cast hd.ne'
  have h10 : ((10 : ℚ) ^ k) ≠ 0 := by positivity
  rw [Nat.mul_div_assoc n hdvd, Nat.cast_mul, Nat.cast_div hdvd hd']
  push_cast
  field_simp
  ring

theorem natAbs_cast_nonneg (z : ℤ) (h : 0 ≤ z) : ((z.natAbs : ℕ) : ℚ) = (z : ℚ) := by
  have h1 : ((z.natAbs : ℕ) : ℤ) = z := Int.natAbs_of_nonneg h
  have h2 : (((z.natAbs : ℕ) : ℤ) : ℚ) = (z : ℚ) := by rw [h1]
  rw [← h2, Int.cast_natCast]

theorem natAbs_cast_neg (z : ℤ) (h : z < 0) : ((z.natAbs : ℕ) : ℚ) = -(z : ℚ) := by
  have h1 : ((z.natAbs : ℕ) : ℤ) = -z := Int.ofNat_natAbs_of_nonpos (le_of_lt h)
  have h2 : (((z.natAbs : ℕ) : ℤ) : ℚ) = ((-z : ℤ) : ℚ) := by rw [h1]
  rw [← Int.cast_neg, ← h2, Int.cast_natCast]

theorem unsignedText_head (n d k : Nat) :
    ∃ c tl, unsignedText n d k = c :: tl ∧ isDigit c = true := by
  have hne := natText_ne_nil (n * 10 ^ k / d / 10 ^ k)
  have hdig := natText_digits (n * 10 ^ k / d / 10 ^ k)
  cases hx : natText (n * 10 ^ k / d / 10 ^ k) with
  | nil => exact absurd hx hne
  | cons c tl =>
    refine ⟨c, tl ++ (if k = 0 then [] else '.' :: padZeros k (natText (n * 10 ^ k / d % 10 ^ k))),
      ?_, hdig c (by simp [hx])⟩
    simp [unsignedText, hx]

theorem parseNumber_numberText (q : ℚ) (k : Nat) (hk : decimalPlaces q = some k)
    (rest : List Char) (hrest : numberEnds rest = true) :
    parseNumber (numberText q ++ rest) = some (q, rest) := by
  have hdvd := decimalPlaces_dvd q k hk
  have hval := scaled_cast q.num.natAbs q.den k q.den_pos hdvd
  have hun := parseUnsigned_unsignedText q.num.natAbs q.den k rest hrest
  rw [hval] at hun
  by_cases hneg : q.num < 0
  · have hq : -((q.num.natAbs : ℚ) / (q.den : ℚ)) = q := by
      rw [natAbs_cast_neg _ hneg, neg_div, neg_neg, Rat.num_div_den]
    simp [numberText, hk, hneg, parseNumber, hun, hq]
  · have hq : (q.num.natAbs : ℚ) / (q.den : ℚ) = q := by
      rw [natAbs_cast_nonneg _ (not_lt.1 hneg), Rat.num_div_den]
    obtain ⟨c, tl, hc, hdig⟩ := unsignedText_head q.num.natAbs q.den k
    have hminus : c ≠ '-' := by
      rintro rfl
      exact absurd hdig (by decide)
    have hcons : numberText q ++ rest = c :: (tl ++ rest) := by
      simp [numberText, hk, hneg, hc]
    rw [hcons]
    simp only [parseNumber, hminus, if_false]
    rw [← hcons]
    simp only [numberText, hk, hneg, if_false, List.nil_append]
    rw [hun, hq]

theorem numberText_head (q : ℚ) (k : Nat) (hk : decimalPlaces q = some k) :
    ∃ c tl, numberText q = c :: tl ∧ (c = '-' ∨ isDigit c = true) := by
  obtain ⟨c, tl, hc, hdig⟩ := unsignedText_head q.num.natAbs q.den k
  by_cases hneg : q.num < 0
  · exact ⟨'-', c :: tl, by simp [numberText, hk, hneg, hc], Or.inl rfl⟩
  · exact ⟨c, tl, by simp [numberText, hk, hneg, hc], Or.inr hdig⟩

theorem hex4_control (n : Nat) (h : n < 32) :
    hex4 '0' '0' (hexChar (n / 16)) (hexChar (n % 16)) = some n := by
  interval_cases n <;> rfl

theorem parseChars_quoteChar (c : Char) (tail : List Char) (fuel : Nat) :
    parseChars (fuel + 1) (quoteChar c ++ tail)
      = (parseChars fuel tail).map (fun p => (c :: p.1, p.2)) := by
  unfold quoteChar
  split
  · next h => subst h; simp [parseChars, decodeEscape, simpleEscape]
  split
  · next h => subst h; simp [parseChars, decodeEscape, simpleEscape]
  split
  · next h => subst h; simp [parseChars, decodeEscape, simpleEscape]
  split
  · next h => subst h; simp [parseChars, decodeEscape, simpleEscape]
  split
  · next h => subst h; simp [parseChars, decodeEscape, simpleEscape]
  split
  · next h => subst h; simp [parseChars, decodeEscape, simpleEscape]
  split
  · next h => subst h; simp [parseChars, decodeEscape, simpleEscape]
  split
  · next h =>
    have hc : Char.ofNat c.toNat = c := Char.ofNat_toNat c
    have hs1 : ¬ (0xD800 ≤ c.toNat ∧ c.toNat < 0xDC00) := by omega
    have hs2 : ¬ (0xDC00 ≤ c.toNat ∧ c.toNat < 0xE000) := by omega
    simp [parseChars, decodeEscape, decodeUnicode, hex4_control c.toNat h, hs1, hs2, hc]
  · next h1 h2 h3 h4 h5 h6 h7 h8 =>
    simp [parseChars, h1, h2, h8]

theorem parseChars_quoteChars (cs rest : List Char) :
    ∀ fuel, cs.length < fuel → parseChars fuel (quoteChars cs ++ '\x22' :: rest) = some (cs, rest) := by
  induction cs with
  | nil =>
    intro fuel hf
    obtain ⟨f, rfl⟩ : ∃ f, fuel = f + 1 := ⟨fuel - 1, by omega⟩
    simp [quoteChars, parseChars]
  | cons c cs ih =>
    intro fuel hf
    obtain ⟨f, rfl⟩ : ∃ f, fuel = f + 1 := ⟨fuel - 1, by simp at hf; omega⟩
    simp only [quoteChars, List.append_assoc]
    rw [parseChars_quoteChar, ih f (by simpa using hf)]
    rfl

theorem quoteChar_length (c : Char) : 1 ≤ (quoteChar c).length := by
  unfold quoteChar
  repeat' split
  all_goals simp

theorem quoteChars_length (cs : List Char) : cs.length ≤ (quoteChars cs).length := by
  induction cs with
  | nil => simp [quoteChars]
  | cons c cs ih =>
    have := quoteChar_length c
    simp [quoteChars]
    omega

theorem parseString_quote (s : String) (rest : List Char) :
    parseString (quoteChars s.toList ++ '\x22' :: rest) = some (s, rest) := by
  have hlen := quoteChars_length s.toList
  have happ : (quoteChars s.toList ++ '\x22' :: rest).length
      = (quoteChars s.toList).length + (rest.length + 1) := by
    rw [List.length_append, List.length_cons]
  simp only [parseString]
  rw [parseChars_quoteChars s.toList rest _ (by omega)]
  rfl

theorem endsValue_numberEnds (rest : List Char) (h : endsValue rest = true) :
    numberEnds rest = true := by
  cases rest with
  | nil => rfl
  | cons c r =>
    simp only [endsValue, Bool.or_eq_true, decide_eq_true_eq] at h
    rcases h with (rfl | rfl) | rfl <;> rfl

theorem isDigit_not_special (c : Char) (h : c = '-' ∨ isDigit c = true) :
    isWhitespace c = false ∧ c ≠ '\x22' ∧ c ≠ '[' ∧ c ≠ '\x7b' ∧ c ≠ 'n' ∧ c ≠ 't' ∧ c ≠ 'f'
      ∧ c ≠ ']' ∧ c ≠ '\x7d' := by
  rcases h with rfl | h
  · decide
  · have hn : 48 ≤ c.toNat ∧ c.toNat ≤ 57 := by simpa [isDigit] using h
    refine ⟨?_, ?_, ?_, ?_, ?_, ?_, ?_, ?_, ?_⟩
    · simp only [isWhitespace, Bool.or_eq_false_iff, decide_eq_false_iff_not]
      refine ⟨⟨⟨?_, ?_⟩, ?_⟩, ?_⟩ <;> (rintro rfl; revert hn; decide)
    all_goals (rintro rfl; revert hn; decide)

theorem text_head (v : JSValue) :
    ∃ c tl, text v = c :: tl ∧ isWhitespace c = false ∧ c ≠ ']' ∧ c ≠ '\x7d' := by
  cases v with
  | undefined => exact ⟨'n', ['u', 'l', 'l'], by simp [text], by decide, by decide, by decide⟩
  | null => exact ⟨'n', ['u', 'l', 'l'], by simp [text], by decide, by decide, by decide⟩
  | bool b =>
    cases b
    · exact ⟨'f', ['a', 'l', 's', 'e'], by simp [text], by decide, by decide, by decide⟩
    · exact ⟨'t', ['r', 'u', 'e'], by simp [text], by decide, by decide, by decide⟩
  | num q =>
    cases hk : decimalPlaces q with
    | none =>
      exact ⟨'n', ['u', 'l', 'l'], by simp [text, numberText, hk], by decide, by decide,
        by decide⟩
    | some k =>
      obtain ⟨c, tl, hc, hd⟩ := numberText_head q k hk
      have := isDigit_not_special c hd
      exact ⟨c, tl, by simp [text, hc], this.1, this.2.2.2.2.2.2.2.1, this.2.2.2.2.2.2.2.2⟩
  | str s =>
    exact ⟨'\x22', quoteChars s.toList ++ ['\x22'], by simp [text, quote], by decide, by decide,
      by decide⟩
  | arr items =>
    exact ⟨'[', joinComma (itemTexts items) ++ [']'], by simp [text], by decide, by decide,
      by decide⟩
  | obj props =>
    exact ⟨'\x7b', joinComma (memberTexts props) ++ ['\x7d'], by simp [text], by decide,
      by decide, by decide⟩

theorem skipWs_cons (c : Char) (tl : List Char) (h : isWhitespace c = false) :
    skipWs (c :: tl) = c :: tl := by
  simp [skipWs, h]

theorem skipWs_text (v : JSValue) (rest : List Char) :
    skipWs (text v ++ rest) = text v ++ rest := by
  obtain ⟨c, tl, hc, hws, _, _⟩ := text_head v
  rw [hc]
  exact skipWs_cons c _ hws

theorem setField_append (acc : List (String × JSValue)) (k : String) (v : JSValue)
    (h : k ∉ acc.map Prod.fst) : setField acc k v = acc ++ [(k, v)] := by
  induction acc with
  | nil => rfl
  | cons p acc ih =>
    obtain ⟨k', v'⟩ := p
    simp only [List.map_cons, List.mem_cons, not_or] at h
    have hne : ¬ k' = k := fun e => h.1 e.symm
    simp [setField, hne, ih h.2]

theorem memberTexts_cons (k : String) (v : JSValue) (rest : List (String × JSValue))
    (hv : isJSON v = true) :
    memberTexts ((k, v) :: rest) = (quote k ++ ':' :: text v) :: memberTexts rest := by
  cases v <;> simp [memberTexts, isJSON] at hv ⊢

theorem memberTexts_ne_nil (props : List (String × JSValue)) (h : membersJSON props = true)
    (hne : props ≠ []) : memberTexts props ≠ [] := by
  cases props with
  | nil => exact absurd rfl hne
  | cons p rest =>
    obtain ⟨k, v⟩ := p
    simp only [membersJSON, Bool.and_eq_true] at h
    rw [memberTexts_cons k v rest h.1.1]
    simp

theorem joinComma_cons_append (x : List Char) (xs : List (List Char)) (tail : List Char) :
    joinComma (x :: xs) ++ tail
      = x ++ (if xs = [] then tail else ',' :: (joinComma xs ++ tail)) := by
  cases xs with
  | nil => simp [joinComma]
  | cons y ys => simp [joinComma]

theorem itemTexts_ne_nil (items : List JSValue) (hne : items ≠ []) : itemTexts items ≠ [] := by
  cases items with
  | nil => exact absurd rfl hne
  | cons v rest => simp [itemTexts]

mutual
theorem parseValue_text : ∀ (v : JSValue), isJSON v = true → ∀ (fuel : Nat) (rest : List Char),
    2 * (text v ++ rest).length < fuel → endsValue rest = true →
    parseValue fuel (text v ++ rest) = some (v, rest)
  | .undefined, hv, _, _, _, _ => by simp [isJSON] at hv
  | .null, _, fuel, rest, hf, _ => by
    obtain ⟨f, rfl⟩ : ∃ f, fuel = f + 1 := ⟨fuel - 1, by omega⟩
    simp [text, parseValue, skipWs, isWhitespace]
  | .bool true, _, fuel, rest, hf, _ => by
    obtain ⟨f, rfl⟩ : ∃ f, fuel = f + 1 := ⟨fuel - 1, by omega⟩
    simp [text, parseValue, skipWs, isWhitespace]
  | .bool false, _, fuel, rest, hf, _ => by
    obtain ⟨f, rfl⟩ : ∃ f, fuel = f + 1 := ⟨fuel - 1, by omega⟩
    simp [text, parseValue, skipWs, isWhitespace]
  | .num q, hv, fuel, rest, hf, hrest => by
    obtain ⟨f, rfl⟩ : ∃ f, fuel = f + 1 := ⟨fuel - 1, by omega⟩
    obtain ⟨k, hk⟩ : ∃ k, decimalPlaces q = some k := by
      simpa [isJSON, Option.isSome_iff_exists] using hv
    obtain ⟨c, tl, hc, hd⟩ := numberText_head q k hk
    have hsp := isDigit_not_special c hd
    have hparse := parseNumber_numberText q k hk rest (endsValue_numberEnds rest hrest)
    rw [hc, List.cons_append] at hparse
    simp only [text, hc, List.cons_append, parseValue, skipWs_cons c _ hsp.1]
    simp [hsp.2.1, hsp.2.2.1, hsp.2.2.2.1, hsp.2.2.2.2.1, hsp.2.2.2.2.2.1, hsp.2.2.2.2.2.2.1,
      hparse]
  | .str s, _, fuel, rest, hf, _ => by
    obtain ⟨f, rfl⟩ : ∃ f, fuel = f + 1 := ⟨fuel - 1, by omega⟩
    have : parseString (quoteChars s.data ++ '\x22' :: rest) = some (s, rest) :=
      parseString_quote s rest
    simp [text, quote, parseValue, skipWs, isWhitespace, this]
  | .arr [], _, fuel, rest, hf, _ => by
    obtain ⟨f, rfl⟩ : ∃ f, fuel = f + 1 := ⟨fuel - 1, by omega⟩
    simp [text, itemTexts, joinComma, parseValue, skipWs, isWhitespace]
  | .arr (x :: xs), hv, fuel, rest, hf, _ => by
    obtain ⟨f, rfl⟩ : ∃ f, fuel = f + 1 := ⟨fuel - 1, by omega⟩
    have hv' : allJSON (x :: xs) = true := by simpa [isJSON] using hv
    have htext : text (.arr (x :: xs)) ++ rest
        = '[' :: (joinComma (itemTexts (x :: xs)) ++ ']' :: rest) := by
      simp [text]
    rw [htext] at hf ⊢
    have hitems := parseItems_texts (x :: xs) hv' (by simp) f rest (by
      simp only [List.length_cons] at hf ⊢
      omega)
    obtain ⟨c, tl, hc, hws, hcb, _⟩ := text_head x
    have hstart : joinComma (itemTexts (x :: xs)) ++ ']' :: rest
        = c :: (tl ++ (if itemTexts xs = [] then ']' :: rest
            else ',' :: (joinComma (itemTexts xs) ++ ']' :: rest))) := by
      rw [itemTexts, joinComma_cons_append, hc]
      rfl
    have hskip : skipWs (joinComma (itemTexts (x :: xs)) ++ ']' :: rest)
        = joinComma (itemTexts (x :: xs)) ++ ']' :: rest := by
      rw [hstart]
      exact skipWs_cons c _ hws
    have hhead : (joinComma (itemTexts (x :: xs)) ++ ']' :: rest).head? ≠ some ']' := by
      rw [hstart]
      simpa using hcb
    rw [parseValue, skipWs_cons _ _ (by decide)]
    simp only [hskip, hhead, hitems]
    simp
  | .obj [], _, fuel, rest, hf, _ => by
    obtain ⟨f, rfl⟩ : ∃ f, fuel = f + 1 := ⟨fuel - 1, by omega⟩
    simp [text, memberTexts, joinComma, parseValue, skipWs, isWhitespace]
  | .obj (p :: ps), hv, fuel, rest, hf, _ => by
    obtain ⟨f, rfl⟩ : ∃ f, fuel = f + 1 := ⟨fuel - 1, by omega⟩
    have hv' : membersJSON (p :: ps) = true := by simpa [isJSON] using hv
    have htext : text (.obj (p :: ps)) ++ rest
        = '\x7b' :: (joinComma (memberTexts (p :: ps)) ++ '\x7d' :: rest) := by
      simp [text]
    rw [htext] at hf ⊢
    have hmembers := parseMembers_texts (p :: ps) hv' (by simp) f rest [] (by simp) (by
      simp only [List.length_cons] at hf ⊢
      omega)
    obtain ⟨k, v⟩ := p
    have hvj : isJSON v = true := by
      simp only [membersJSON, Bool.and_eq_true] at hv'
      exact hv'.1.1
    have hstart : joinComma (memberTexts ((k, v) :: ps)) ++ '\x7d' :: rest
        = '\x22' :: ((quoteChars k.toList ++ ['\x22']) ++ ':' :: text v
            ++ (if memberTexts ps = [] then '\x7d' :: rest
              else ',' :: (joinComma (memberTexts ps) ++ '\x7d' :: rest))) := by
      rw [memberTexts_cons k v ps hvj, joinComma_cons_append]
      simp [quote]
    have hskip : skipWs (joinComma (memberTexts ((k, v) :: ps)) ++ '\x7d' :: rest)
        = joinComma (memberTexts ((k, v) :: ps)) ++ '\x7d' :: rest := by
      rw [hstart]
      exact skipWs_cons _ _ (by decide)
    have hhead : (joinComma (memberTexts ((k, v) :: ps)) ++ '\x7d' :: rest).head?
        ≠ some '\x7d' := by
      rw [hstart]
      simp
    rw [parseValue, skipWs_cons _ _ (by decide)]
    simp only [hskip, hhead, hmembers]
    simp
theorem parseItems_texts : ∀ (items : List JSValue), allJSON items = true → items ≠ [] →
    ∀ (fuel : Nat) (rest : List Char),
    2 * (joinComma (itemTexts items) ++ ']' :: rest).length + 1 < fuel →
    parseItems fuel (joinComma (itemTexts items) ++ ']' :: rest) = some (items, rest)
  | [], _, hne, _, _, _ => absurd rfl hne
  | v :: more, h, _, fuel, rest, hf => by
    obtain ⟨f, rfl⟩ : ∃ f, fuel = f + 1 := ⟨fuel - 1, by omega⟩
    simp only [allJSON, Bool.and_eq_true] at h
    rw [itemTexts, joinComma_cons_append] at hf ⊢
    cases more with
    | nil =>
      simp only [itemTexts, if_true] at hf ⊢
      have hval := parseValue_text v h.1 f (']' :: rest) (by omega) rfl
      simp [parseItems, hval, skipWs, isWhitespace]
    | cons w ws =>
      have hne : itemTexts (w :: ws) ≠ [] := itemTexts_ne_nil _ (by simp)
      simp only [hne, if_false] at hf ⊢
      have hval := parseValue_text v h.1 f
        (',' :: (joinComma (itemTexts (w :: ws)) ++ ']' :: rest)) (by omega) rfl
      have hrec := parseItems_texts (w :: ws) h.2 (by simp) f rest (by
        simp only [List.length_append, List.length_cons] at hf ⊢
        omega)
      simp [parseItems, hval, skipWs, isWhitespace, hrec]
theorem parseMembers_texts : ∀ (props : List (String × JSValue)), membersJSON props = true →
    props ≠ [] → ∀ (fuel : Nat) (rest : List Char) (acc : List (String × JSValue)),
    (∀ p ∈ props, p.1 ∉ acc.map Prod.fst) →
    2 * (joinComma (memberTexts props) ++ '\x7d' :: rest).length + 1 < fuel →
    parseMembers fuel (joinComma (memberTexts props) ++ '\x7d' :: rest) acc
      = some (acc ++ props, rest)
  | [], _, hne, _, _, _, _, _ => absurd rfl hne
  | (k, v) :: more, h, _, fuel, rest, acc, hacc, hf => by
    obtain ⟨f, rfl⟩ : ∃ f, fuel = f + 1 := ⟨fuel - 1, by omega⟩
    simp only [membersJSON, Bool.and_eq_true, decide_eq_true_eq] at h
    obtain ⟨⟨hvj, hk⟩, hmore⟩ := h
    have hset : setField acc k v = acc ++ [(k, v)] :=
      setField_append acc k v (hacc (k, v) (by simp))
    rw [memberTexts_cons k v more hvj, joinComma_cons_append] at hf ⊢
    have hquote : ∀ tail, quote k ++ ':' :: text v ++ tail
        = '\x22' :: (quoteChars k.toList ++ '\x22' :: ':' :: (text v ++ tail)) := by
      intro tail
      simp [quote]
    have hkey : ∀ tail, parseString (quoteChars k.toList ++ '\x22' :: tail) = some (k, tail) :=
      fun tail => parseString_quote k tail
    cases more with
    | nil =>
      simp only [memberTexts, if_true] at hf ⊢
      rw [hquote] at hf ⊢
      have hval := parseValue_text v hvj f ('\x7d' :: rest) (by
        simp only [List.length_append, List.length_cons] at hf ⊢
        omega) rfl
      rw [parseMembers, skipWs_cons _ _ (by decide)]
      simp only [hkey, if_true, skipWs_cons ':' _ (by decide), hval,
        skipWs_cons '\x7d' _ (by decide), hset]
      simp
    | cons w ws =>
      have hne : memberTexts (w :: ws) ≠ [] := memberTexts_ne_nil _ hmore (by simp)
      simp only [hne, if_false] at hf ⊢
      rw [hquote] at hf ⊢
      have hval := parseValue_text v hvj f
        (',' :: (joinComma (memberTexts (w :: ws)) ++ '\x7d' :: rest)) (by
        simp only [List.length_append, List.length_cons] at hf ⊢
        omega) rfl
      have hacc' : ∀ p ∈ w :: ws, p.1 ∉ (acc ++ [(k, v)]).map Prod.fst := by
        intro p hp
        have h1 := hacc p (by simp [hp])
        have h2 : p.1 ≠ k := by
          rintro rfl
          exact hk (List.mem_map_of_mem Prod.fst hp)
        simp only [List.map_append, List.mem_append, List.map_cons, List.map_nil,
          List.mem_singleton, not_or]
        exact ⟨h1, h2⟩
      have hrec := parseMembers_texts (w :: ws) hmore (by simp) f rest (acc ++ [(k, v)]) hacc' (by
        simp only [List.length_append, List.length_cons] at hf ⊢
        omega)
      rw [parseMembers, skipWs_cons _ _ (by decide)]
      simp only [hkey, if_true, skipWs_cons ':' _ (by decide), hval,
        skipWs_cons ',' _ (by decide), hset, hrec]
      simp
end

theorem stringify_eq (v : JSValue) (hv : isJSON v = true) :
    stringify v = some (String.mk (text v)) := by
  cases v with
  | undefined => simp [isJSON] at hv
  | _ => rfl

theorem parse_text (v : JSValue) (hv : isJSON v = true) : parse (String.mk (text v)) = .ok v := by
  have h := parseValue_text v hv (2 * (text v).length + 2) [] (by simp) rfl
  rw [List.append_nil] at h
  have hlen : (String.mk (text v)).length = (text v).length := rfl
  have hlist : (String.mk (text v)).toList = text v := rfl
  simp only [parse, hlen, hlist, h]
  rfl

/-- Parsing what `JSON.stringify` wrote gives the value back. -/
theorem parse_stringify (v : JSValue) (hv : isJSON v = true) :
    ∃ t, stringify v = some t ∧ parse t = .ok v :=
  ⟨String.mk (text v), stringify_eq v hv, parse_text v hv⟩

end JSONText

theorem Home_login_stores (J : JSON) (s : Home.State) (data success user role : JSValue)
    (text : String) (hlogin : s.isLogin = true)
    (hsuccess : data.getProp "success" = .ok success) (htruthy : success.truthy = true)
    (huser : data.getProp "user" = .ok user) (hrole : user.getProp "role" = .ok role)
    (htext : J.stringify user = some text) :
    (Home.handleSubmit J (.json data) s).env.getItem "user" = some text := by
  simp only [Home.handleSubmit, hsuccess, htruthy, hlogin, huser, hrole, htext, if_true,
    Option.getD_some]
  cases role.strictEq (.str "admin") <;>
    simp [Browser.fetch, Browser.push, Browser.setItem, Browser.getItem, List.lookup]

/-- A login answered with `success` but no user record leaves the text `null`
in the store: `setItem` runs before the read of `data.user.role` raises. -/
theorem Home_login_without_user_stores_null :
    (Home.handleSubmit (JSON.ofPair "null" .null)
        (.json (.obj [("success", .bool true), ("user", .null)]))
        (Home.State.initial emptyBrowser)).env.getItem "user" = some "null"
    ∧ (Home.handleSubmit (JSON.ofPair "null" .null)
        (.json (.obj [("success", .bool true), ("user", .null)]))
        (Home.State.initial emptyBrowser)).env.pushes = []
    ∧ (Home.handleSubmit (JSON.ofPair "null" .null)
        (.json (.obj [("success", .bool true), ("user", .null)]))
        (Home.State.initial emptyBrowser)).message
        = .str "An error occurred. Please try again." :=
  ⟨rfl, rfl, rfl⟩

/-! ## Claims -/

/-- C1: for every array of messages (no element `null` or `undefined`) that
the admin load receives, `fetchMessages` sets `stats` to the array's length,
the number of messages whose status is exactly `unread` and the number whose
status is exactly `read`; for the three-message array of the specification
that is `{total: 3, unread: 2, read: 1}`. -/
theorem C1_fetchMessages_stats (items : List JSValue) (s : AdminPanel.State)
    (h : ∀ m ∈ items, m.isNullish = false) :
    (AdminPanel.fetchMessages (.json (.arr items)) s).stats
        = ⟨items.length, (items.filter (hasStatus "unread")).length,
            (items.filter (hasStatus "read")).length⟩
      ∧ (AdminPanel.fetchMessages (.json (.arr threeMessages)) s).stats = ⟨3, 2, 1⟩ := by
  constructor
  · simp [AdminPanel.fetchMessages, AdminPanel.fetchMessages.resume,
      AdminPanel.fetchMessages.body, filterByStatus_eq_filter _ items h]
  · rfl

theorem C1_fetchMessages_stats_witness :
    (AdminPanel.fetchMessages (.json (.arr threeMessages)) (AdminPanel.State.initial emptyBrowser)).stats
        = ⟨threeMessages.length, (threeMessages.filter (hasStatus "unread")).length,
            (threeMessages.filter (hasStatus "read")).length⟩
      ∧ (AdminPanel.fetchMessages (.json (.arr threeMessages)) (AdminPanel.State.initial emptyBrowser)).stats
        = ⟨3, 2, 1⟩ :=
  C1_fetchMessages_stats threeMessages (AdminPanel.State.initial emptyBrowser)
    (by intro m hm; simp [threeMessages] at hm; rcases hm with rfl | rfl | rfl <;> rfl)

/-- C2, as amended: the mount guard of the dashboard, for every content of
the stored `user` entry.  With no stored entry (or an empty one) it pushes `/`
and neither sets the user nor issues a request.  With a stored record whose
role is `admin` it pushes `/admin` and neither sets the user nor issues a
request.  With any other stored record it pushes nothing, sets `user` to the
record and requests the messages of the record's `id`.  A non-empty text that
`JSON.parse` rejects, or that denotes `null`, is no record: on it the guard
raises, having pushed nothing, set no user and issued no request; every other
parsed value has a readable `role` and `id`, so the cases are exhaustive. -/
theorem C2_dashboard_guard (J : JSON) (s : Dashboard.State) :
    (s.env.getItem "user" = none ∨ s.env.getItem "user" = some "" →
      ∃ s', Dashboard.useEffect J s = .ok s' ∧ s'.env.pushes = s.env.pushes ++ ["/"]
        ∧ s'.user = s.user ∧ s'.env.requests = s.env.requests)
    ∧ (∀ text parsedUser role id, s.env.getItem "user" = some text → text ≠ "" →
        J.parse text = .ok parsedUser → parsedUser.getProp "role" = .ok role →
        parsedUser.getProp "id" = .ok id →
        (role = .str "admin" →
          ∃ s', Dashboard.useEffect J s = .ok s' ∧ s'.env.pushes = s.env.pushes ++ ["/admin"]
            ∧ s'.user = s.user ∧ s'.env.requests = s.env.requests)
        ∧ (role ≠ .str "admin" →
          ∃ s', Dashboard.useEffect J s = .ok s' ∧ s'.env.pushes = s.env.pushes
            ∧ s'.user = parsedUser
            ∧ s'.env.requests = s.env.requests ++ [⟨.GET, .messagesOfUser id, none⟩]))
    ∧ (∀ text, s.env.getItem "user" = some text → text ≠ "" →
        (∀ e, J.parse text = .error e → Dashboard.useEffect J s = .error e)
        ∧ (∀ v, J.parse text = .ok v → v.isNullish = true →
            Dashboard.useEffect J s = .error .TypeError)
        ∧ (∀ v, J.parse text = .ok v → v.isNullish = false →
            ∃ role id, v.getProp "role" = .ok role ∧ v.getProp "id" = .ok id)) := by
  refine ⟨?_, ?_, ?_⟩
  · intro h
    have heq : Dashboard.useEffect J s = .ok { s with env := s.env.push "/" } := by
      rcases h with h | h <;> simp [Dashboard.useEffect, h]
    exact ⟨_, heq, rfl, rfl, rfl⟩
  · intro text parsedUser role id h hne hp hrole hid
    refine ⟨?_, ?_⟩
    · intro hadmin
      subst hadmin
      have heq : Dashboard.useEffect J s = .ok { s with env := s.env.push "/admin" } := by
        simp [Dashboard.useEffect, h, hne, hp, hrole, JSValue.strictEq]
      exact ⟨_, heq, rfl, rfl, rfl⟩
    · intro hadmin
      have hfalse : role.strictEq (.str "admin") = false := by
        cases hb : role.strictEq (.str "admin") with
        | false => rfl
        | true => exact absurd ((strictEq_str_iff role "admin").1 hb) hadmin
      have heq : Dashboard.useEffect J s
          = .ok (Dashboard.fetchUserMessages.start id { s with user := parsedUser }) := by
        simp [Dashboard.useEffect, h, hne, hp, hrole, hid, hfalse]
      exact ⟨_, heq, rfl, rfl, rfl⟩
  · intro text h hne
    refine ⟨?_, ?_, ?_⟩
    · intro e hp
      simp [Dashboard.useEffect, h, hne, hp]
    · intro v hp hv
      cases v <;> simp [JSValue.isNullish] at hv <;>
        simp [Dashboard.useEffect, h, hne, hp, JSValue.getProp]
    · intro v _ hv
      obtain ⟨role, hrole⟩ := getProp_ok_of_not_nullish v "role" hv
      obtain ⟨id, hid⟩ := getProp_ok_of_not_nullish v "id" hv
      exact ⟨role, id, hrole, hid⟩

theorem C2_dashboard_guard_witness :
    (∃ s', Dashboard.useEffect (JSON.ofPair "u" sampleUser) (Dashboard.State.initial emptyBrowser)
        = .ok s' ∧ s'.env.pushes = ["/"] ∧ s'.user = .null ∧ s'.env.requests = [])
    ∧ (∃ s', Dashboard.useEffect (JSON.ofPair "a" sampleAdmin)
          (Dashboard.State.initial (browserWith "a")) = .ok s'
        ∧ s'.env.pushes = ["/admin"] ∧ s'.user = .null ∧ s'.env.requests = [])
    ∧ (∃ s', Dashboard.useEffect (JSON.ofPair "u" sampleUser)
          (Dashboard.State.initial (browserWith "u")) = .ok s'
        ∧ s'.env.pushes = [] ∧ s'.user = sampleUser
        ∧ s'.env.requests = [⟨.GET, .messagesOfUser (.num 7), none⟩])
    ∧ Dashboard.useEffect (JSON.ofPair "null" .null)
          (Dashboard.State.initial (browserWith "undefined")) = .error .SyntaxError
    ∧ Dashboard.useEffect (JSON.ofPair "null" .null)
          (Dashboard.State.initial (browserWith "null")) = .error .TypeError :=
  ⟨(C2_dashboard_guard (JSON.ofPair "u" sampleUser) (Dashboard.State.initial emptyBrowser)).1
      (Or.inl rfl),
   ((C2_dashboard_guard (JSON.ofPair "a" sampleAdmin)
      (Dashboard.State.initial (browserWith "a"))).2.1
      "a" sampleAdmin (.str "admin") (.num 1) rfl (by decide) rfl rfl rfl).1 rfl,
   ((C2_dashboard_guard (JSON.ofPair "u" sampleUser)
      (Dashboard.State.initial (browserWith "u"))).2.1
      "u" sampleUser (.str "user") (.num 7) rfl (by decide) rfl rfl rfl).2 (by simp),
   ((C2_dashboard_guard (JSON.ofPair "null" .null)
      (Dashboard.State.initial (browserWith "undefined"))).2.2
      "undefined" rfl (by decide)).1 .SyntaxError rfl,
   ((C2_dashboard_guard (JSON.ofPair "null" .null)
      (Dashboard.State.initial (browserWith "null"))).2.2
      "null" rfl (by decide)).2.1 .null rfl rfl⟩

/-- C2, counterexample to the claim as first stated: with the text `null`
stored (what `JSON.stringify(null)` writes), the guard of the dashboard
raises `TypeError`.  It completes in no state at all: it does not push `/`,
as the claim has it when no session record is stored, nor does it set a user
and request that user's messages, as the claim has it for every other
content. -/
theorem C2_dashboard_guard_counterexample :
    Dashboard.useEffect (JSON.ofPair "null" .null) (Dashboard.State.initial (browserWith "null"))
        = .error .TypeError
    ∧ ¬ ∃ s', Dashboard.useEffect (JSON.ofPair "null" .null)
          (Dashboard.State.initial (browserWith "null")) = .ok s'
        ∧ (s'.env.pushes = ["/"] ∨ s'.env.pushes = ["/admin"]
          ∨ (s'.env.pushes = [] ∧ s'.user = .null
            ∧ s'.env.requests = [⟨.GET, .messagesOfUser .undefined, none⟩])) := by
  have hrun : Dashboard.useEffect (JSON.ofPair "null" .null)
      (Dashboard.State.initial (browserWith "null")) = .error .TypeError := rfl
  refine ⟨hrun, ?_⟩
  rintro ⟨s', hs', _⟩
  rw [hrun] at hs'
  cases hs'

/-- C3, as amended: the mount guard of the admin page, for every content of
the stored `user` entry.  With no stored entry (or an empty one) it pushes
`/`; with a stored record whose role is anything but `admin` it pushes
`/dashboard`; in both cases it neither sets the user nor issues a request.
With a stored record whose role is `admin` it pushes nothing, sets `user` to
the record and requests all messages; and whenever the guard completes
without a push, the stored entry was such a record.  A non-empty text that
`JSON.parse` rejects, or that denotes `null`, is no record: on it the guard
raises, having pushed nothing, set no user and issued no request; every other
parsed value has a readable `role`, so the cases are exhaustive. -/
theorem C3_admin_guard (J : JSON) (s : AdminPanel.State) :
    (s.env.getItem "user" = none ∨ s.env.getItem "user" = some "" →
      ∃ s', AdminPanel.useEffect J s = .ok s' ∧ s'.env.pushes = s.env.pushes ++ ["/"]
        ∧ s'.user = s.user ∧ s'.env.requests = s.env.requests)
    ∧ (∀ text parsedUser role, s.env.getItem "user" = some text → text ≠ "" →
        J.parse text = .ok parsedUser → parsedUser.getProp "role" = .ok role →
        (role ≠ .str "admin" →
          ∃ s', AdminPanel.useEffect J s = .ok s'
            ∧ s'.env.pushes = s.env.pushes ++ ["/dashboard"]
            ∧ s'.user = s.user ∧ s'.env.requests = s.env.requests)
        ∧ (role = .str "admin" →
          ∃ s', AdminPanel.useEffect J s = .ok s' ∧ s'.env.pushes = s.env.pushes
            ∧ s'.user = parsedUser
            ∧ s'.env.requests = s.env.requests ++ [⟨.GET, .messagesAdmin, none⟩]))
    ∧ (∀ s', AdminPanel.useEffect J s = .ok s' → s'.env.pushes = s.env.pushes →
        ∃ text parsedUser, s.env.getItem "user" = some text ∧ J.parse text = .ok parsedUser
          ∧ parsedUser.getProp "role" = .ok (.str "admin") ∧ s'.user = parsedUser
          ∧ s'.env.requests = s.env.requests ++ [⟨.GET, .messagesAdmin, none⟩])
    ∧ (∀ text, s.env.getItem "user" = some text → text ≠ "" →
        (∀ e, J.parse text = .error e → AdminPanel.useEffect J s = .error e)
        ∧ (∀ v, J.parse text = .ok v → v.isNullish = true →
            AdminPanel.useEffect J s = .error .TypeError)
        ∧ (∀ v, J.parse text = .ok v → v.isNullish = false →
            ∃ role, v.getProp "role" = .ok role)) := by
  refine ⟨?_, ?_, ?_, ?_⟩
  · intro h
    have heq : AdminPanel.useEffect J s = .ok { s with env := s.env.push "/" } := by
      rcases h with h | h <;> simp [AdminPanel.useEffect, h]
    exact ⟨_, heq, rfl, rfl, rfl⟩
  · intro text parsedUser role h hne hp hrole
    refine ⟨?_, ?_⟩
    · intro hadmin
      have hfalse : role.strictEq (.str "admin") = false := by
        cases hb : role.strictEq (.str "admin") with
        | false => rfl
        | true => exact absurd ((strictEq_str_iff role "admin").1 hb) hadmin
      have heq : AdminPanel.useEffect J s = .ok { s with env := s.env.push "/dashboard" } := by
        simp [AdminPanel.useEffect, h, hne, hp, hrole, hfalse]
      exact ⟨_, heq, rfl, rfl, rfl⟩
    · intro hadmin
      subst hadmin
      have heq : AdminPanel.useEffect J s
          = .ok (AdminPanel.fetchMessages.start { s with user := parsedUser }) := by
        simp [AdminPanel.useEffect, h, hne, hp, hrole, JSValue.strictEq]
      exact ⟨_, heq, rfl, rfl, rfl⟩
  · intro s' hrun hpush
    have grow : ∀ (l : List String) (x : String), l ++ [x] ≠ l := by
      intro l x hl
      have := congrArg List.length hl
      simp at this
    unfold AdminPanel.useEffect at hrun
    cases hget : s.env.getItem "user" with
    | none =>
      simp [hget] at hrun
      subst hrun
      exact absurd hpush (grow _ _)
    | some text =>
      simp only [hget] at hrun
      by_cases hempty : text = ""
      · simp [hempty] at hrun
        subst hrun
        exact absurd hpush (grow _ _)
      · simp only [hempty, if_false] at hrun
        cases hp : J.parse text with
        | error e => simp [hp] at hrun
        | ok parsedUser =>
          simp only [hp] at hrun
          cases hrole : parsedUser.getProp "role" with
          | error e => simp [hrole] at hrun
          | ok role =>
            simp only [hrole] at hrun
            cases hb : role.strictEq (.str "admin") with
            | false =>
              simp [hb] at hrun
              subst hrun
              exact absurd hpush (grow _ _)
            | true =>
              simp [hb] at hrun
              subst hrun
              have := (strictEq_str_iff role "admin").1 hb
              subst this
              exact ⟨text, parsedUser, rfl, hp, hrole, rfl, rfl⟩
  · intro text h hne
    refine ⟨?_, ?_, ?_⟩
    · intro e hp
      simp [AdminPanel.useEffect, h, hne, hp]
    · intro v hp hv
      cases v <;> simp [JSValue.isNullish] at hv <;>
        simp [AdminPanel.useEffect, h, hne, hp, JSValue.getProp]
    · intro v _ hv
      exact getProp_ok_of_not_nullish v "role" hv

theorem C3_admin_guard_witness :
    (∃ s', AdminPanel.useEffect (JSON.ofPair "u" sampleUser) (AdminPanel.State.initial emptyBrowser)
        = .ok s' ∧ s'.env.pushes = ["/"] ∧ s'.user = .null ∧ s'.env.requests = [])
    ∧ (∃ s', AdminPanel.useEffect (JSON.ofPair "u" sampleUser)
          (AdminPanel.State.initial (browserWith "u")) = .ok s'
        ∧ s'.env.pushes = ["/dashboard"] ∧ s'.user = .null ∧ s'.env.requests = [])
    ∧ (∃ s', AdminPanel.useEffect (JSON.ofPair "a" sampleAdmin)
          (AdminPanel.State.initial (browserWith "a")) = .ok s'
        ∧ s'.env.pushes = [] ∧ s'.user = sampleAdmin
        ∧ s'.env.requests = [⟨.GET, .messagesAdmin, none⟩])
    ∧ (∃ text parsedUser, (browserWith "a").getItem "user" = some text
        ∧ (JSON.ofPair "a" sampleAdmin).parse text = .ok parsedUser
        ∧ parsedUser.getProp "role" = .ok (.str "admin")
        ∧ (AdminPanel.fetchMessages.start
            { AdminPanel.State.initial (browserWith "a") with user := sampleAdmin }).user
            = parsedUser
        ∧ (AdminPanel.fetchMessages.start
            { AdminPanel.State.initial (browserWith "a") with user := sampleAdmin }).env.requests
            = [] ++ [⟨.GET, .messagesAdmin, none⟩])
    ∧ AdminPanel.useEffect (JSON.ofPair "null" .null)
          (AdminPanel.State.initial (browserWith "not json")) = .error .SyntaxError
    ∧ AdminPanel.useEffect (JSON.ofPair "null" .null)
          (AdminPanel.State.initial (browserWith "null")) = .error .TypeError :=
  ⟨(C3_admin_guard (JSON.ofPair "u" sampleUser) (AdminPanel.State.initial emptyBrowser)).1
      (Or.inl rfl),
   ((C3_admin_guard (JSON.ofPair "u" sampleUser) (AdminPanel.State.initial (browserWith "u"))).2.1
      "u" sampleUser (.str "user") rfl (by decide) rfl rfl).1 (by simp),
   ((C3_admin_guard (JSON.ofPair "a" sampleAdmin) (AdminPanel.State.initial (browserWith "a"))).2.1
      "a" sampleAdmin (.str "admin") rfl (by decide) rfl rfl).2 rfl,
   (C3_admin_guard (JSON.ofPair "a" sampleAdmin)
      (AdminPanel.State.initial (browserWith "a"))).2.2.1 _ rfl rfl,
   ((C3_admin_guard (JSON.ofPair "null" .null)
      (AdminPanel.State.initial (browserWith "not json"))).2.2.2
      "not json" rfl (by decide)).1 .SyntaxError rfl,
   ((C3_admin_guard (JSON.ofPair "null" .null)
      (AdminPanel.State.initial (browserWith "null"))).2.2.2
      "null" rfl (by decide)).2.1 .null rfl rfl⟩

/-- C3, counterexample to the claim as first stated: with the text `null`
stored (what `JSON.stringify(null)` writes), the guard of the admin page
raises `TypeError`.  It completes in no state at all: it pushes neither `/`,
as the claim has it when no session record is stored, nor `/dashboard`, as the
claim has it for a record that is not an administrator's, and it does not set
a user and load the messages either. -/
theorem C3_admin_guard_counterexample :
    AdminPanel.useEffect (JSON.ofPair "null" .null) (AdminPanel.State.initial (browserWith "null"))
        = .error .TypeError
    ∧ ¬ ∃ s', AdminPanel.useEffect (JSON.ofPair "null" .null)
          (AdminPanel.State.initial (browserWith "null")) = .ok s'
        ∧ (s'.env.pushes = ["/"] ∨ s'.env.pushes = ["/dashboard"]
          ∨ (s'.env.pushes = [] ∧ s'.user = .null
            ∧ s'.env.requests = [⟨.GET, .messagesAdmin, none⟩])) := by
  have hrun : AdminPanel.useEffect (JSON.ofPair "null" .null)
      (AdminPanel.State.initial (browserWith "null")) = .error .TypeError := rfl
  refine ⟨hrun, ?_⟩
  rintro ⟨s', hs', _⟩
  rw [hrun] at hs'
  cases hs'

/-- C4: in login mode, on a response whose `success` is truthy and whose
`user` is a record that the codec serialises to `text`, `handleSubmit` stores
`text` under the key `user` and pushes `/admin` if the record's role is
`admin`, `/dashboard` otherwise.  With the platform's codec, and the record a
value that a JSON response can hold, the stored entry parses back to the
record of the response. -/
theorem C4_login_persists_and_navigates (J : JSON) (s : Home.State)
    (data success user role : JSValue) (text : String)
    (hlogin : s.isLogin = true)
    (hsuccess : data.getProp "success" = .ok success) (htruthy : success.truthy = true)
    (huser : data.getProp "user" = .ok user) (hrole : user.getProp "role" = .ok role)
    (htext : J.stringify user = some text) :
    ((Home.handleSubmit J (.json data) s).env.getItem "user" = some text)
    ∧ (role = .str "admin" →
        (Home.handleSubmit J (.json data) s).env.pushes = s.env.pushes ++ ["/admin"])
    ∧ (role ≠ .str "admin" →
        (Home.handleSubmit J (.json data) s).env.pushes = s.env.pushes ++ ["/dashboard"])
    ∧ (JSONText.isJSON user = true →
        ((Home.handleSubmit JSON.ecma (.json data) s).env.getItem "user").map JSON.ecma.parse
          = some (.ok user)) := by
  refine ⟨Home_login_stores J s data success user role text hlogin hsuccess htruthy huser hrole
    htext, ?_, ?_, ?_⟩
  · intro hadmin
    subst hadmin
    simp [Home.handleSubmit, hsuccess, htruthy, hlogin, huser, hrole, htext,
      JSValue.strictEq, Browser.fetch, Browser.push, Browser.setItem]
  · intro hadmin
    simp [Home.handleSubmit, hsuccess, htruthy, hlogin, huser, hrole, htext,
      strictEq_str_false role "admin" hadmin, Browser.fetch, Browser.push, Browser.setItem]
  · intro hjson
    obtain ⟨t, hst, hparse⟩ := JSONText.parse_stringify user hjson
    have hstore := Home_login_stores JSON.ecma s data success user role t hlogin hsuccess
      htruthy huser hrole hst
    rw [hstore]
    exact congrArg some hparse

theorem C4_login_persists_and_navigates_witness :
    ((Home.handleSubmit (JSON.ofPair "a" sampleAdmin)
        (.json (.obj [("success", .bool true), ("user", sampleAdmin)]))
        (Home.State.initial emptyBrowser)).env.getItem "user" = some "a")
    ∧ ((Home.handleSubmit (JSON.ofPair "a" sampleAdmin)
        (.json (.obj [("success", .bool true), ("user", sampleAdmin)]))
        (Home.State.initial emptyBrowser)).env.pushes = [] ++ ["/admin"])
    ∧ ((Home.handleSubmit (JSON.ofPair "u" sampleUser)
        (.json (.obj [("success", .bool true), ("user", sampleUser)]))
        (Home.State.initial emptyBrowser)).env.pushes = [] ++ ["/dashboard"])
    ∧ (((Home.handleSubmit JSON.ecma
        (.json (.obj [("success", .bool true), ("user", sampleAdmin)]))
        (Home.State.initial emptyBrowser)).env.getItem "user").map JSON.ecma.parse
          = some (.ok sampleAdmin)) :=
  ⟨(C4_login_persists_and_navigates (JSON.ofPair "a" sampleAdmin)
      (Home.State.initial emptyBrowser)
      (.obj [("success", .bool true), ("user", sampleAdmin)]) (.bool true) sampleAdmin
      (.str "admin") "a" rfl rfl rfl rfl rfl rfl).1,
   (C4_login_persists_and_navigates (JSON.ofPair "a" sampleAdmin)
      (Home.State.initial emptyBrowser)
      (.obj [("success", .bool true), ("user", sampleAdmin)]) (.bool true) sampleAdmin
      (.str "admin") "a" rfl rfl rfl rfl rfl rfl).2.1 rfl,
   (C4_login_persists_and_navigates (JSON.ofPair "u" sampleUser)
      (Home.State.initial emptyBrowser)
      (.obj [("success", .bool true), ("user", sampleUser)]) (.bool true) sampleUser
      (.str "user") "u" rfl rfl rfl rfl rfl rfl).2.2.1 (by simp),
   (C4_login_persists_and_navigates (JSON.ofPair "a" sampleAdmin)
      (Home.State.initial emptyBrowser)
      (.obj [("success", .bool true), ("user", sampleAdmin)]) (.bool true) sampleAdmin
      (.str "admin") "a" rfl rfl rfl rfl rfl rfl).2.2.2 rfl⟩

/-- C5: `markAsRead(m)` answered by a response whose `success` is truthy
issues the `PUT` for `m` and then the request that reloads the list, pushes no
route, and replaces the list by the array the reload returns; if the selected
message is a record whose `id` is strictly equal to `m`, the selected message
becomes a record whose `status` is `read` and whose other properties are those
it had. -/
theorem C5_markAsRead_success (J : JSON) (m : JSValue) (s : AdminPanel.State)
    (data success : JSValue) (reload : NetOutcome)
    (hsuccess : data.getProp "success" = .ok success) (htruthy : success.truthy = true) :
    (AdminPanel.markAsRead J m (.json data) reload s).env.pushes = s.env.pushes
    ∧ (AdminPanel.markAsRead J m (.json data) reload s).env.requests
        = s.env.requests ++ [⟨.PUT, .messages, J.stringify (.obj [("message_id", m)])⟩,
            ⟨.GET, .messagesAdmin, none⟩]
    ∧ (∀ items, reload = .json (.arr items) →
        (AdminPanel.markAsRead J m (.json data) reload s).messages = items)
    ∧ (∀ props id, s.selectedMessage = .obj props → props.lookup "id" = some id →
        id.strictEq m = true →
        ∃ props', (AdminPanel.markAsRead J m (.json data) reload s).selectedMessage = .obj props'
          ∧ props'.lookup "status" = some (.str "read")
          ∧ ∀ k, k ≠ "status" → props'.lookup k = props.lookup k) := by
  have resume_pushes : ∀ (t : AdminPanel.State),
      (AdminPanel.fetchMessages.resume reload t).env.pushes = t.env.pushes :=
    fun t => (fetchMessages_resume_frame reload t).1
  have resume_requests : ∀ (t : AdminPanel.State),
      (AdminPanel.fetchMessages.resume reload t).env.requests = t.env.requests :=
    fun t => (fetchMessages_resume_frame reload t).2.1
  have resume_selected : ∀ (t : AdminPanel.State),
      (AdminPanel.fetchMessages.resume reload t).selectedMessage = t.selectedMessage :=
    fun t => (fetchMessages_resume_frame reload t).2.2.2.1
  have resume_messages : ∀ (t : AdminPanel.State) (items : List JSValue),
      (AdminPanel.fetchMessages.resume (.json (.arr items)) t).messages = items :=
    fun t items => fetchMessages_resume_messages items t
  refine ⟨?_, ?_, ?_, ?_⟩
  · simp only [AdminPanel.markAsRead, hsuccess, htruthy, if_true, resume_pushes]
    cases s.selectedMessage.truthy <;> simp only [if_true, if_false, Bool.false_eq_true]
    · rfl
    · cases s.selectedMessage.getProp "id" with
      | error e => rfl
      | ok id =>
        cases hb : id.strictEq m <;>
          simp [hb, AdminPanel.fetchMessages.start, Browser.fetch]
  · simp only [AdminPanel.markAsRead, hsuccess, htruthy, if_true, resume_requests]
    cases s.selectedMessage.truthy <;> simp only [if_true, if_false, Bool.false_eq_true]
    · simp [AdminPanel.fetchMessages.start, Browser.fetch]
    · cases s.selectedMessage.getProp "id" with
      | error e => simp [AdminPanel.markAsRead.onCatch, AdminPanel.fetchMessages.start,
          Browser.fetch, Browser.consoleError]
      | ok id =>
        cases hb : id.strictEq m <;>
          simp [hb, AdminPanel.fetchMessages.start, Browser.fetch]
  · intro items hreload
    subst hreload
    simp only [AdminPanel.markAsRead, hsuccess, htruthy, if_true, resume_messages]
  · intro props id hsel hid heq
    have hget : s.selectedMessage.getProp "id" = .ok id := by
      simp [hsel, JSValue.getProp, hid]
    have htr : s.selectedMessage.truthy = true := by simp [hsel, JSValue.truthy]
    refine ⟨setField props "status" (.str "read"), ?_, lookup_setField_same _ _ _,
      fun k hk => lookup_setField_other _ _ _ _ hk⟩
    simp only [AdminPanel.markAsRead, hsuccess, htruthy, if_true, resume_selected, htr, hget, heq]
    simp [hsel, JSValue.ownProps]

theorem C5_markAsRead_success_witness :
    (AdminPanel.markAsRead (JSON.ofPair "m" .null) (.num 5)
        (.json (.obj [("success", .bool true)])) .failed adminWithSelected).env.pushes = []
    ∧ (∃ props', (AdminPanel.markAsRead (JSON.ofPair "m" .null) (.num 5)
          (.json (.obj [("success", .bool true)])) .failed adminWithSelected).selectedMessage
          = .obj props'
        ∧ props'.lookup "status" = some (.str "read")
        ∧ ∀ k, k ≠ "status" → props'.lookup k
            = [("id", JSValue.num 5), ("subject", .str "hi"), ("status", .str "unread")].lookup k) :=
  ⟨(C5_markAsRead_success (JSON.ofPair "m" .null) (.num 5) adminWithSelected
      (.obj [("success", .bool true)]) (.bool true) .failed rfl rfl).1,
   (C5_markAsRead_success (JSON.ofPair "m" .null) (.num 5) adminWithSelected
      (.obj [("success", .bool true)]) (.bool true) .failed rfl rfl).2.2.2
      [("id", .num 5), ("subject", .str "hi"), ("status", .str "unread")] (.num 5) rfl rfl
      (by decide)⟩

/-- C6: on the dashboard with a logged-in user, submitting the form while
`subject` or `message` is the empty string issues no request: the browser
finds a `required` control empty and `handleSubmit` does not run. -/
theorem C6_empty_field_blocks_submit (J : JSON) (out reload : NetOutcome) (s : Dashboard.State)
    (huser : s.user.truthy = true)
    (hempty : s.messageData.subject = "" ∨ s.messageData.message = "") :
    (Dashboard.submitForm J out reload s).env.requests = s.env.requests
    ∧ Dashboard.submitForm J out reload s = s := by
  have hinvalid : (Dashboard.formControls s).all FormControl.valid = false := by
    rcases hempty with h | h <;> simp [Dashboard.formControls, FormControl.valid, h]
  have hsame : Dashboard.submitForm J out reload s = s := by
    simp [Dashboard.submitForm, huser, hinvalid]
  exact ⟨by rw [hsame], hsame⟩

theorem C6_empty_field_blocks_submit_witness :
    (Dashboard.submitForm (JSON.ofPair "m" .null) (.json (.obj [("success", .bool true)])) .failed
        { Dashboard.State.initial emptyBrowser with
          user := sampleUser, messageData := ⟨"", "hello"⟩ }).env.requests = []
    ∧ Dashboard.submitForm (JSON.ofPair "m" .null) (.json (.obj [("success", .bool true)])) .failed
        { Dashboard.State.initial emptyBrowser with
          user := sampleUser, messageData := ⟨"", "hello"⟩ }
      = { Dashboard.State.initial emptyBrowser with
          user := sampleUser, messageData := ⟨"", "hello"⟩ } :=
  C6_empty_field_blocks_submit (JSON.ofPair "m" .null) (.json (.obj [("success", .bool true)]))
    .failed { Dashboard.State.initial emptyBrowser with
      user := sampleUser, messageData := ⟨"", "hello"⟩ } rfl (Or.inl rfl)

/-- C7: the body `handleSubmit` posts to the auth endpoint is the
serialisation of `{action: 'login', email, password}` in login mode (no
`username` property) and of `{action: 'register', username, email, password}`
in registration mode, with the form's fields; the action is `login` exactly in
login mode. -/
theorem C7_auth_request_body (J : JSON) (out : NetOutcome) (s : Home.State) :
    (Home.handleSubmit J out s).env.requests
        = s.env.requests ++ [⟨.POST, .auth, J.stringify (Home.payload s)⟩]
    ∧ (s.isLogin = true →
        Home.payload s = .obj [("action", .str "login"), ("email", .str s.formData.email),
          ("password", .str s.formData.password)]
        ∧ (Home.payload s).getProp "username" = .ok .undefined)
    ∧ (s.isLogin = false →
        Home.payload s = .obj [("action", .str "register"),
          ("username", .str s.formData.username), ("email", .str s.formData.email),
          ("password", .str s.formData.password)])
    ∧ ((Home.payload s).getProp "action" = .ok (.str "login") ↔ s.isLogin = true) := by
  refine ⟨Home_handleSubmit_requests J out s, ?_, ?_, ?_⟩
  · intro h
    simp [Home.payload, h, JSValue.getProp, List.lookup]
  · intro h
    simp [Home.payload, h]
  · cases h : s.isLogin <;> simp [Home.payload, h, JSValue.getProp, List.lookup]

theorem C7_auth_request_body_witness :
    (Home.payload { Home.State.initial emptyBrowser with
        formData := ⟨"", "ann@example.com", "pw"⟩ }
      = .obj [("action", .str "login"), ("email", .str "ann@example.com"),
          ("password", .str "pw")]
      ∧ (Home.payload { Home.State.initial emptyBrowser with
          formData := ⟨"", "ann@example.com", "pw"⟩ }).getProp "username" = .ok .undefined)
    ∧ Home.payload { Home.State.initial emptyBrowser with
        isLogin := false, formData := ⟨"ann", "ann@example.com", "pw"⟩ }
      = .obj [("action", .str "register"), ("username", .str "ann"),
          ("email", .str "ann@example.com"), ("password", .str "pw")] :=
  ⟨(C7_auth_request_body (JSON.ofPair "m" .null) .failed
      { Home.State.initial emptyBrowser with
        formData := ⟨"", "ann@example.com", "pw"⟩ }).2.1 rfl,
   (C7_auth_request_body (JSON.ofPair "m" .null) .failed
      { Home.State.initial emptyBrowser with
        isLogin := false, formData := ⟨"ann", "ann@example.com", "pw"⟩ }).2.2.1 rfl⟩

/-- C8: in registration mode, on a response whose `success` is truthy,
`handleSubmit` switches to login mode, resets `username`, `email` and
`password` to the empty string, leaves `localStorage` as it was and pushes no
route. -/
theorem C8_register_success (J : JSON) (s : Home.State) (data success : JSValue)
    (hregister : s.isLogin = false)
    (hsuccess : data.getProp "success" = .ok success) (htruthy : success.truthy = true) :
    (Home.handleSubmit J (.json data) s).isLogin = true
    ∧ (Home.handleSubmit J (.json data) s).formData = ⟨"", "", ""⟩
    ∧ (Home.handleSubmit J (.json data) s).env.localStorage = s.env.localStorage
    ∧ (Home.handleSubmit J (.json data) s).env.pushes = s.env.pushes
    ∧ (Home.handleSubmit J (.json data) s).message
        = .str "Registration successful! Please login." := by
  simp [Home.handleSubmit, hregister, hsuccess, htruthy, Browser.fetch]

theorem C8_register_success_witness :
    (Home.handleSubmit (JSON.ofPair "m" .null) (.json (.obj [("success", .bool true)]))
        { Home.State.initial (browserWith "x") with
          isLogin := false, formData := ⟨"ann", "ann@example.com", "pw"⟩ }).isLogin = true
    ∧ (Home.handleSubmit (JSON.ofPair "m" .null) (.json (.obj [("success", .bool true)]))
        { Home.State.initial (browserWith "x") with
          isLogin := false, formData := ⟨"ann", "ann@example.com", "pw"⟩ }).formData
        = ⟨"", "", ""⟩
    ∧ (Home.handleSubmit (JSON.ofPair "m" .null) (.json (.obj [("success", .bool true)]))
        { Home.State.initial (browserWith "x") with
          isLogin := false, formData := ⟨"ann", "ann@example.com", "pw"⟩ }).env.localStorage
        = [("user", "x")]
    ∧ (Home.handleSubmit (JSON.ofPair "m" .null) (.json (.obj [("success", .bool true)]))
        { Home.State.initial (browserWith "x") with
          isLogin := false, formData := ⟨"ann", "ann@example.com", "pw"⟩ }).env.pushes = []
    ∧ (Home.handleSubmit (JSON.ofPair "m" .null) (.json (.obj [("success", .bool true)]))
        { Home.State.initial (browserWith "x") with
          isLogin := false, formData := ⟨"ann", "ann@example.com", "pw"⟩ }).message
        = .str "Registration successful! Please login." :=
  C8_register_success (JSON.ofPair "m" .null)
    { Home.State.initial (browserWith "x") with
      isLogin := false, formData := ⟨"ann", "ann@example.com", "pw"⟩ }
    (.obj [("success", .bool true)]) (.bool true) rfl rfl rfl

/-- C9: on a response whose `success` is falsy and whose `message` is `msg`,
the landing page's `handleSubmit` sets `message` to `msg` in either mode and
leaves `localStorage` and the mode as they were; the dashboard's
`handleSubmit`, with a user logged in, sets `submitMessage` to `msg` when `msg`
is truthy (a non-empty string) and to `Failed to send message` otherwise. -/
theorem C9_server_failure_message (J : JSON) (s : Home.State) (d : Dashboard.State)
    (reload : NetOutcome) (data success msg : JSValue)
    (hsuccess : data.getProp "success" = .ok success) (hfalsy : success.truthy = false)
    (hmsg : data.getProp "message" = .ok msg) (huser : d.user.truthy = true) :
    (Home.handleSubmit J (.json data) s).message = msg
    ∧ (Home.handleSubmit J (.json data) s).env.localStorage = s.env.localStorage
    ∧ (Home.handleSubmit J (.json data) s).isLogin = s.isLogin
    ∧ (msg.truthy = true → (Dashboard.handleSubmit J (.json data) reload d).submitMessage = msg)
    ∧ (msg.truthy = false → (Dashboard.handleSubmit J (.json data) reload d).submitMessage
        = .str "Failed to send message")
    ∧ (∀ text, msg = .str text → text ≠ "" →
        (Dashboard.handleSubmit J (.json data) reload d).submitMessage = .str text) := by
  have hdash : (Dashboard.handleSubmit J (.json data) reload d).submitMessage
      = msg.orElse (.str "Failed to send message") := by
    obtain ⟨uid, huid⟩ := getProp_ok_of_not_nullish d.user "id" (by
      cases hu : d.user <;> simp [hu, JSValue.truthy] at huser <;> rfl)
    simp [Dashboard.handleSubmit, huser, huid, hsuccess, hfalsy, hmsg]
  refine ⟨?_, ?_, ?_, ?_, ?_, ?_⟩
  · simp [Home.handleSubmit, hsuccess, hfalsy, hmsg]
  · simp [Home.handleSubmit, hsuccess, hfalsy, hmsg, Browser.fetch]
  · simp [Home.handleSubmit, hsuccess, hfalsy, hmsg]
  · intro ht
    simp [hdash, JSValue.orElse, ht]
  · intro hf
    simp [hdash, JSValue.orElse, hf]
  · intro text htext hne
    subst htext
    simp [hdash, JSValue.orElse, JSValue.truthy, hne]

theorem C9_server_failure_message_witness :
    (Home.handleSubmit (JSON.ofPair "m" .null)
        (.json (.obj [("success", .bool false), ("message", .str "Invalid credentials")]))
        (Home.State.initial (browserWith "x"))).message = .str "Invalid credentials"
    ∧ (Home.handleSubmit (JSON.ofPair "m" .null)
        (.json (.obj [("success", .bool false), ("message", .str "Invalid credentials")]))
        (Home.State.initial (browserWith "x"))).env.localStorage = [("user", "x")]
    ∧ (Dashboard.handleSubmit (JSON.ofPair "m" .null)
        (.json (.obj [("success", .bool false), ("message", .str "Invalid credentials")])) .failed
        { Dashboard.State.initial emptyBrowser with user := sampleUser }).submitMessage
        = .str "Invalid credentials"
    ∧ (Dashboard.handleSubmit (JSON.ofPair "m" .null)
        (.json (.obj [("success", .bool false), ("message", .str "")])) .failed
        { Dashboard.State.initial emptyBrowser with user := sampleUser }).submitMessage
        = .str "Failed to send message" :=
  ⟨(C9_server_failure_message (JSON.ofPair "m" .null) (Home.State.initial (browserWith "x"))
      { Dashboard.State.initial emptyBrowser with user := sampleUser } .failed
      (.obj [("success", .bool false), ("message", .str "Invalid credentials")])
      (.bool false) (.str "Invalid credentials") rfl rfl rfl rfl).1,
   (C9_server_failure_message (JSON.ofPair "m" .null) (Home.State.initial (browserWith "x"))
      { Dashboard.State.initial emptyBrowser with user := sampleUser } .failed
      (.obj [("success", .bool false), ("message", .str "Invalid credentials")])
      (.bool false) (.str "Invalid credentials") rfl rfl rfl rfl).2.1,
   (C9_server_failure_message (JSON.ofPair "m" .null) (Home.State.initial (browserWith "x"))
      { Dashboard.State.initial emptyBrowser with user := sampleUser } .failed
      (.obj [("success", .bool false), ("message", .str "Invalid credentials")])
      (.bool false) (.str "Invalid credentials") rfl rfl rfl rfl).2.2.2.2.2
      "Invalid credentials" rfl (by decide),
   (C9_server_failure_message (JSON.ofPair "m" .null) (Home.State.initial (browserWith "x"))
      { Dashboard.State.initial emptyBrowser with user := sampleUser } .failed
      (.obj [("success", .bool false), ("message", .str "")])
      (.bool false) (.str "") rfl rfl rfl rfl).2.2.2.2.1 rfl⟩

/-- C10: whatever the outcome of the request, `loading` is `false` once the
handler has finished: for the landing page's `handleSubmit`, for the
dashboard's `handleSubmit` (which issues its request only with a user set) and
for the admin page's `fetchMessages`. -/
theorem C10_loading_cleared (J : JSON) (out reload : NetOutcome) (s : Home.State)
    (d : Dashboard.State) (a : AdminPanel.State) (huser : d.user.truthy = true) :
    (Home.handleSubmit J out s).loading = false
    ∧ (Dashboard.handleSubmit J out reload d).loading = false
    ∧ (AdminPanel.fetchMessages out a).loading = false := by
  refine ⟨rfl, ?_, rfl⟩
  simp only [Dashboard.handleSubmit, huser, Bool.not_true, Bool.false_eq_true, if_false]
  split
  · rfl
  · cases out with
    | failed => rfl
    | json data =>
      simp only []
      split
      · rfl
      · split
        · rw [fetchUserMessages_resume_loading]
        · split <;> rfl

theorem C10_loading_cleared_witness :
    (Home.handleSubmit (JSON.ofPair "m" .null) .failed
        { Home.State.initial emptyBrowser with loading := true }).loading = false
    ∧ (Dashboard.handleSubmit (JSON.ofPair "m" .null) .failed .failed
        { Dashboard.State.initial emptyBrowser with user := sampleUser }).loading = false
    ∧ (AdminPanel.fetchMessages .failed (AdminPanel.State.initial emptyBrowser)).loading
        = false :=
  C10_loading_cleared (JSON.ofPair "m" .null) .failed .failed
    { Home.State.initial emptyBrowser with loading := true }
    { Dashboard.State.initial emptyBrowser with user := sampleUser }
    (AdminPanel.State.initial emptyBrowser) rfl

/-- C11: a load that fails leaves what is displayed.  When the request
rejects, or the response is not an array, `fetchMessages` of the admin page
leaves `messages` and `stats` as they were and `fetchUserMessages` of the
dashboard leaves `userMessages` as it was; when the response is an array,
either list becomes exactly that array. -/
theorem C11_failed_load_keeps_list (a : AdminPanel.State) (d : Dashboard.State)
    (userId data : JSValue) (items : List JSValue) (hdata : data.isArray = false) :
    ((AdminPanel.fetchMessages .failed a).messages = a.messages
      ∧ (AdminPanel.fetchMessages .failed a).stats = a.stats)
    ∧ ((AdminPanel.fetchMessages (.json data) a).messages = a.messages
      ∧ (AdminPanel.fetchMessages (.json data) a).stats = a.stats)
    ∧ (Dashboard.fetchUserMessages userId .failed d).userMessages = d.userMessages
    ∧ (Dashboard.fetchUserMessages userId (.json data) d).userMessages = d.userMessages
    ∧ (AdminPanel.fetchMessages (.json (.arr items)) a).messages = items
    ∧ (Dashboard.fetchUserMessages userId (.json (.arr items)) d).userMessages = items := by
  refine ⟨⟨rfl, rfl⟩, ?_, rfl, ?_, ?_, rfl⟩
  · simp [AdminPanel.fetchMessages, AdminPanel.fetchMessages.resume,
      fetchMessages_body_not_array data _ hdata, AdminPanel.fetchMessages.start]
  · cases data <;> simp [JSValue.isArray] at hdata <;> rfl
  · exact fetchMessages_resume_messages items _

theorem C11_failed_load_keeps_list_witness :
    ((AdminPanel.fetchMessages .failed
        { AdminPanel.State.initial emptyBrowser with
          messages := threeMessages, stats := ⟨3, 2, 1⟩ }).messages = threeMessages
      ∧ (AdminPanel.fetchMessages .failed
        { AdminPanel.State.initial emptyBrowser with
          messages := threeMessages, stats := ⟨3, 2, 1⟩ }).stats = ⟨3, 2, 1⟩)
    ∧ ((AdminPanel.fetchMessages (.json (.obj [("error", .str "denied")]))
        { AdminPanel.State.initial emptyBrowser with
          messages := threeMessages, stats := ⟨3, 2, 1⟩ }).messages = threeMessages
      ∧ (AdminPanel.fetchMessages (.json (.obj [("error", .str "denied")]))
        { AdminPanel.State.initial emptyBrowser with
          messages := threeMessages, stats := ⟨3, 2, 1⟩ }).stats = ⟨3, 2, 1⟩)
    ∧ (Dashboard.fetchUserMessages (.num 7) .failed
        { Dashboard.State.initial emptyBrowser with userMessages := threeMessages }).userMessages
        = threeMessages
    ∧ (Dashboard.fetchUserMessages (.num 7) (.json (.obj [("error", .str "denied")]))
        { Dashboard.State.initial emptyBrowser with userMessages := threeMessages }).userMessages
        = threeMessages
    ∧ (AdminPanel.fetchMessages (.json (.arr [.obj [("status", .str "read")]]))
        { AdminPanel.State.initial emptyBrowser with
          messages := threeMessages, stats := ⟨3, 2, 1⟩ }).messages
        = [.obj [("status", .str "read")]]
    ∧ (Dashboard.fetchUserMessages (.num 7) (.json (.arr [.obj [("status", .str "read")]]))
        { Dashboard.State.initial emptyBrowser with userMessages := threeMessages }).userMessages
        = [.obj [("status", .str "read")]] :=
  C11_failed_load_keeps_list
    { AdminPanel.State.initial emptyBrowser with messages := threeMessages, stats := ⟨3, 2, 1⟩ }
    { Dashboard.State.initial emptyBrowser with userMessages := threeMessages }
    (.num 7) (.obj [("error", .str "denied")]) [.obj [("status", .str "read")]] rfl

/-- C13: for every array of messages (no element `null` or `undefined`),
the stats `fetchMessages` computes satisfy `unread + read ≤ total`, with
equality exactly when every message has status `unread` or `read`; a message
with any other status, or none, adds one to `total` and nothing to `unread`
or `read`. -/
theorem C13_stats_invariant (items : List JSValue) (s : AdminPanel.State)
    (h : ∀ m ∈ items, m.isNullish = false) :
    ((AdminPanel.fetchMessages (.json (.arr items)) s).stats.unread
        + (AdminPanel.fetchMessages (.json (.arr items)) s).stats.read
      ≤ (AdminPanel.fetchMessages (.json (.arr items)) s).stats.total)
    ∧ ((AdminPanel.fetchMessages (.json (.arr items)) s).stats.unread
        + (AdminPanel.fetchMessages (.json (.arr items)) s).stats.read
        = (AdminPanel.fetchMessages (.json (.arr items)) s).stats.total
      ↔ ∀ m ∈ items, hasStatus "unread" m = true ∨ hasStatus "read" m = true)
    ∧ (∀ m : JSValue, m.isNullish = false → hasStatus "unread" m = false →
        hasStatus "read" m = false →
        (AdminPanel.fetchMessages (.json (.arr (m :: items))) s).stats
          = ⟨(AdminPanel.fetchMessages (.json (.arr items)) s).stats.total + 1,
              (AdminPanel.fetchMessages (.json (.arr items)) s).stats.unread,
              (AdminPanel.fetchMessages (.json (.arr items)) s).stats.read⟩) := by
  have hstats := fetchMessages_stats_of_messages items s h
  obtain ⟨hle, hiff⟩ := filter_lengths_le (hasStatus "unread") (hasStatus "read") items
    hasStatus_unread_read_exclusive
  refine ⟨?_, ?_, ?_⟩
  · rw [hstats]
    exact hle
  · rw [hstats]
    exact hiff
  · intro m hm hu hr
    have h' : ∀ x ∈ m :: items, x.isNullish = false := by
      intro x hx
      rcases List.mem_cons.1 hx with rfl | hx
      · exact hm
      · exact h x hx
    rw [fetchMessages_stats_of_messages (m :: items) s h', hstats]
    simp [List.filter_cons, hu, hr]

theorem C13_stats_invariant_witness :
    ((AdminPanel.fetchMessages (.json (.arr threeMessages))
        (AdminPanel.State.initial emptyBrowser)).stats.unread
        + (AdminPanel.fetchMessages (.json (.arr threeMessages))
        (AdminPanel.State.initial emptyBrowser)).stats.read
      ≤ (AdminPanel.fetchMessages (.json (.arr threeMessages))
        (AdminPanel.State.initial emptyBrowser)).stats.total)
    ∧ (AdminPanel.fetchMessages (.json (.arr (.obj [("status", .str "archived")] :: threeMessages)))
        (AdminPanel.State.initial emptyBrowser)).stats
        = ⟨(AdminPanel.fetchMessages (.json (.arr threeMessages))
              (AdminPanel.State.initial emptyBrowser)).stats.total + 1,
            (AdminPanel.fetchMessages (.json (.arr threeMessages))
              (AdminPanel.State.initial emptyBrowser)).stats.unread,
            (AdminPanel.fetchMessages (.json (.arr threeMessages))
              (AdminPanel.State.initial emptyBrowser)).stats.read⟩ :=
  ⟨(C13_stats_invariant threeMessages (AdminPanel.State.initial emptyBrowser)
      (by intro m hm; simp [threeMessages] at hm; rcases hm with rfl | rfl | rfl <;> rfl)).1,
   (C13_stats_invariant threeMessages (AdminPanel.State.initial emptyBrowser)
      (by intro m hm; simp [threeMessages] at hm; rcases hm with rfl | rfl | rfl <;> rfl)).2.2
      (.obj [("status", .str "archived")]) rfl (by decide) (by decide)⟩

/-- C12: the three guards agree.  For every stored session record, the
landing page redirects to `/admin` if the role is `admin` and to `/dashboard`
otherwise; the admin page issues no redirect exactly when the role is `admin`
and the dashboard issues none exactly when it is not; so from whichever page
the visitor starts, the redirects end, after at most one hop, on the page of
the record's role. -/
theorem C12_guards_consistent (J : JSON) (env : Browser) (text : String)
    (parsedUser role : JSValue) (hget : env.getItem "user" = some text) (hne : text ≠ "")
    (hp : J.parse text = .ok parsedUser) (hrole : parsedUser.getProp "role" = .ok role) :
    (role = .str "admin" → Route.redirect J env .home = .ok (some "/admin"))
    ∧ (role ≠ .str "admin" → Route.redirect J env .home = .ok (some "/dashboard"))
    ∧ (Route.redirect J env .admin = .ok none ↔ role = .str "admin")
    ∧ (Route.redirect J env .dashboard = .ok none ↔ role ≠ .str "admin")
    ∧ (∀ r, Route.settle J 2 env r
        = .ok (some (if role.strictEq (.str "admin") then Route.admin else Route.dashboard))) := by
  have hhome := mount_home_of_record J env text parsedUser role hget hne hp hrole
  have hadmin := mount_admin_of_record J env text parsedUser role hget hne hp hrole
  obtain ⟨id, hdash⟩ := mount_dashboard_of_record J env text parsedUser role hget hne hp hrole
  cases hb : role.strictEq (.str "admin") with
  | true =>
    have hr : role = .str "admin" := (strictEq_str_iff role "admin").1 hb
    simp only [hb, if_true] at hhome hadmin hdash
    have hadmin' := mount_admin_of_record J (env.push "/admin") text parsedUser role hget hne hp
      hrole
    simp only [hb, if_true] at hadmin'
    refine ⟨?_, ?_, ?_, ?_, ?_⟩
    · intro _
      simp [Route.redirect, hhome, Except.map, pushed_push]
    · intro h
      exact absurd hr h
    · simp [Route.redirect, hadmin, Except.map, pushed_fetch, hr]
    · simp [Route.redirect, hdash, Except.map, pushed_push, hr]
    · intro r
      cases r with
      | home => simp [Route.settle, hhome, pushed_push, Route.ofPath, hadmin', pushed_fetch]
      | dashboard => simp [Route.settle, hdash, pushed_push, Route.ofPath, hadmin', pushed_fetch]
      | admin => simp [Route.settle, hadmin, pushed_fetch]
  | false =>
    have hr : role ≠ .str "admin" := by
      intro h
      rw [(strictEq_str_iff role "admin").2 h] at hb
      exact absurd hb (by simp)
    simp only [hb, Bool.false_eq_true, if_false] at hhome hadmin hdash
    obtain ⟨id', hdash'⟩ := mount_dashboard_of_record J (env.push "/dashboard") text parsedUser
      role hget hne hp hrole
    simp only [hb, Bool.false_eq_true, if_false] at hdash'
    refine ⟨?_, ?_, ?_, ?_, ?_⟩
    · intro h
      exact absurd h hr
    · intro _
      simp [Route.redirect, hhome, Except.map, pushed_push]
    · simp [Route.redirect, hadmin, Except.map, pushed_push, hr]
    · simp [Route.redirect, hdash, Except.map, pushed_fetch, hr]
    · intro r
      cases r with
      | home => simp [Route.settle, hhome, pushed_push, Route.ofPath, hdash', pushed_fetch]
      | dashboard => simp [Route.settle, hdash, pushed_fetch]
      | admin => simp [Route.settle, hadmin, pushed_push, Route.ofPath, hdash', pushed_fetch]

theorem C12_guards_consistent_witness :
    Route.redirect (JSON.ofPair "a" sampleAdmin) (browserWith "a") .home = .ok (some "/admin")
    ∧ Route.redirect (JSON.ofPair "u" sampleUser) (browserWith "u") .home
        = .ok (some "/dashboard")
    ∧ Route.redirect (JSON.ofPair "a" sampleAdmin) (browserWith "a") .admin = .ok none
    ∧ Route.redirect (JSON.ofPair "u" sampleUser) (browserWith "u") .dashboard = .ok none
    ∧ (∀ r, Route.settle (JSON.ofPair "u" sampleUser) 2 (browserWith "u") r
        = .ok (some Route.dashboard)) :=
  ⟨(C12_guards_consistent (JSON.ofPair "a" sampleAdmin) (browserWith "a") "a" sampleAdmin
      (.str "admin") rfl (by decide) rfl rfl).1 rfl,
   (C12_guards_consistent (JSON.ofPair "u" sampleUser) (browserWith "u") "u" sampleUser
      (.str "user") rfl (by decide) rfl rfl).2.1 (by simp),
   (C12_guards_consistent (JSON.ofPair "a" sampleAdmin) (browserWith "a") "a" sampleAdmin
      (.str "admin") rfl (by decide) rfl rfl).2.2.1.2 rfl,
   (C12_guards_consistent (JSON.ofPair "u" sampleUser) (browserWith "u") "u" sampleUser
      (.str "user") rfl (by decide) rfl rfl).2.2.2.1.2 (by simp),
   (C12_guards_consistent (JSON.ofPair "u" sampleUser) (browserWith "u") "u" sampleUser
      (.str "user") rfl (by decide) rfl rfl).2.2.2.2⟩

end DynamicTest
